import Mathlib

/-! # cube-demo: rotation, perspective projection and the /computeVertices handler

A shallow embedding of `src/cube-demo.go`.

Numbers.  The Go program stores coordinates as `float32` and evaluates the
trigonometric functions in `float64`.  The embedding is written over an
arbitrary field `R` and a record `MathLib R` holding what the program takes
from Go's `math` package (`math.Pi`, `math.Cos`, `math.Sin`).  Conversions
between `int`, `float32` and `float64` are the canonical maps into `R`, so the
rounding of the arithmetic is not part of this model.  Over the reals the
`math` package is read with the real cosine and sine and a value `pi` for
`math.Pi` (`trigMath pi`): the real number pi (`realMath`), or the `float64`
constant that the product `float64(angle) * math.Pi` really uses (`goMath`).
Statements that compare frames up to a tolerance are given for angles within
the range of a 32-bit `int`, where the rounding left out of the model is small
against the tolerance; beyond it the frames of the program drift.

State.  The handler of `/computeVertices` works on one `ServerAnswer`
variable declared in `main` and shared, without a lock, by all requests.
`computeVertices` is one run of the handler that no other run overlaps: it
takes the shared variable in and gives it back, and a handler that panics is a
result carrying the error.  Runs that overlap are modelled step by step
(`schedStep`, `runSchedule`): each statement of a run that touches the shared
variable is a step, and the steps of different runs come in any order.
-/

namespace CubeDemo

/-! ## Data structures -/

/-- Go `type Point2D struct { X, Y float32 }`. -/
structure Point2D (R : Type) where
  X : R
  Y : R

/-- Go `type Point3D struct { X, Y, Z float32 }`. -/
structure Point3D (R : Type) where
  X : R
  Y : R
  Z : R

/-- Go `type ServerAnswer struct`, the record encoded as the JSON answer. -/
structure ServerAnswer (R : Type) where
  ServerName : String
  Angle : Int
  Vertices : List (Point2D R)
  PointOrder : List (List Int)

/-- What the program uses from Go's `math` package. -/
structure MathLib (R : Type) where
  Pi : R
  Cos : R → R
  Sin : R → R

/-! ## Projection constants -/

/-- Go `var origVertices = []Point3D{...}`: the 8 corners of the cube. -/
def origVertices (R : Type) [Field R] : List (Point3D R) :=
  [ ⟨-1, 1, -1⟩,
    ⟨1, 1, -1⟩,
    ⟨1, -1, -1⟩,
    ⟨-1, -1, -1⟩,
    ⟨-1, 1, 1⟩,
    ⟨1, 1, 1⟩,
    ⟨1, -1, 1⟩,
    ⟨-1, -1, 1⟩ ]

/-- Go `const viewWidth = 400`. -/
def viewWidth : Nat := 400

/-- Go `const viewHeight = 200`. -/
def viewHeight : Nat := 200

/-- Go `const fov = 128`. -/
def fov : Nat := 128

/-- Go `const viewDistance = 3.5`. -/
def viewDistance : ℚ := 7 / 2

/-! ## Rotation functions -/

/-- Go `func rotateX(p3d Point3D, angle int) Point3D`. -/
def rotateX {R : Type} [Field R] (M : MathLib R) (p3d : Point3D R) (angle : Int) :
    Point3D R :=
  let rad := (angle : R) * M.Pi / 180
  let cosa := M.Cos rad
  let sina := M.Sin rad
  let y := p3d.Y * cosa - p3d.Z * sina
  let z := p3d.Y * sina + p3d.Z * cosa
  ⟨p3d.X, y, z⟩

/-- Go `func rotateY(p3d Point3D, angle int) Point3D`. -/
def rotateY {R : Type} [Field R] (M : MathLib R) (p3d : Point3D R) (angle : Int) :
    Point3D R :=
  let rad := (angle : R) * M.Pi / 180
  let cosa := M.Cos rad
  let sina := M.Sin rad
  let z := p3d.Z * cosa - p3d.X * sina
  let x := p3d.Z * sina + p3d.X * cosa
  ⟨x, p3d.Y, z⟩

/-- Go `func rotateZ(p3d Point3D, angle int) Point3D`. -/
def rotateZ {R : Type} [Field R] (M : MathLib R) (p3d : Point3D R) (angle : Int) :
    Point3D R :=
  let rad := (angle : R) * M.Pi / 180
  let cosa := M.Cos rad
  let sina := M.Sin rad
  let x := p3d.X * cosa - p3d.Y * sina
  let y := p3d.X * sina + p3d.Y * cosa
  ⟨x, y, p3d.Z⟩

/-! ## Projection function -/

/-- Go `func project(p3d Point3D) Point2D`.  `viewWidth/2` and `viewHeight/2`
are constant expressions over integer constants, so the division is the
integer one, done before the conversion to a float. -/
def project {R : Type} [Field R] (p3d : Point3D R) : Point2D R :=
  let factor := (fov : R) / ((viewDistance : R) + p3d.Z)
  let x := p3d.X * factor + ((viewWidth / 2 : Nat) : R)
  let y := p3d.Y * factor + ((viewHeight / 2 : Nat) : R)
  ⟨x, y⟩

/-! ## strconv.Atoi -/

/-- The two error kinds of Go's `strconv` (`ErrSyntax`, `ErrRange`) that a
`*strconv.NumError` returned by `Atoi` carries. -/
inductive NumError where
  | ErrSyntax : NumError
  | ErrRange : NumError
deriving DecidableEq

/-- Value of a decimal digit, `none` for any other character. -/
def digitVal (c : Char) : Option Nat :=
  if 48 ≤ c.toNat ∧ c.toNat ≤ 57 then some (c.toNat - 48) else none

/-- The digit loop of `strconv.ParseUint(s, 10, bitSize)`: `maxVal` is
`1<<bitSize - 1`, the accumulator is a `uint64`.  A character that is not a
decimal digit is a syntax error; leaving the range is a range error, reported
as soon as it happens. -/
def parseUintLoop (maxVal : Nat) : List Char → Nat → Except NumError Nat
  | [], n => .ok n
  | c :: cs, n =>
    match digitVal c with
    | none => .error .ErrSyntax
    | some d =>
      if (2 ^ 64 - 1) / 10 + 1 ≤ n then .error .ErrRange
      else
        let n1 := n * 10 + d
        if 2 ^ 64 ≤ n1 ∨ maxVal < n1 then .error .ErrRange
        else parseUintLoop maxVal cs n1

/-- Go `strconv.ParseUint(s, 10, bitSize)` on the characters of `s`. -/
def parseUint (bitSize : Nat) (s : List Char) : Except NumError Nat :=
  if s = [] then .error .ErrSyntax
  else parseUintLoop (2 ^ bitSize - 1) s 0

/-- Go `strconv.ParseInt(s, 10, bitSize)` on the characters of `s`: an
optional sign, then `ParseUint`, then the check against the signed range. -/
def parseInt (bitSize : Nat) (s : List Char) : Except NumError Int :=
  match s with
  | [] => .error .ErrSyntax
  | c :: cs =>
    let neg := c = '-'
    let body := if c = '+' ∨ c = '-' then cs else c :: cs
    match parseUint bitSize body with
    | .error .ErrSyntax => .error .ErrSyntax
    | .error .ErrRange => .error .ErrRange
    | .ok un =>
      let cutoff := 2 ^ (bitSize - 1)
      if ¬ neg ∧ cutoff ≤ un then .error .ErrRange
      else if neg ∧ cutoff < un then .error .ErrRange
      else .ok (if neg then - (un : Int) else (un : Int))

/-- Go `strconv.Atoi(s)`, which is `ParseInt(s, 10, 0)` with `intSize` the
width of `int` on the target (32 or 64).  The fast path that `Atoi` takes on
short strings returns the same results and is not modelled apart. -/
def Atoi (intSize : Nat) (s : String) : Except NumError Int :=
  parseInt intSize s.data

/-- The character of the decimal digit `d`. -/
def digitChar (d : Nat) : Char := Char.ofNat (48 + d)

/-- The decimal text of a natural number, without leading zeros. -/
def natText (n : Nat) : List Char :=
  if n = 0 then ['0'] else (Nat.digits 10 n).reverse.map digitChar

/-- The decimal text of an integer: a `-` in front of a negative one. -/
def intText (a : Int) : String :=
  ⟨if a < 0 then '-' :: natText a.natAbs else natText a.natAbs⟩

/-! ## Main process -/

/-- The literal assigned to `serverAnswer.PointOrder` in `main`. -/
def pointOrder : List (List Int) :=
  [[0, 1, 2, 3], [1, 5, 6, 2], [5, 4, 7, 6], [4, 0, 3, 7], [0, 4, 5, 1], [3, 2, 6, 7]]

/-- The `serverAnswer` variable as `main` leaves it before the handlers are
registered: `name` is the result of `os.Hostname()`, `envName` the value of
the environment variable `CUBEHOST`. -/
def initServerAnswer (R : Type) (name envName : String) : ServerAnswer R :=
  { ServerName := if envName ≠ "" then envName else name
    Angle := 0
    Vertices := []
    PointOrder := pointOrder }

/-- A request to `/computeVertices`: the value of its `angle` query parameter,
`none` when the parameter is absent. -/
structure Request where
  angle : Option String

/-- Go `r.URL.Query().Get("angle")`: the empty string when the parameter is
absent. -/
def Request.queryGet (r : Request) : String :=
  r.angle.getD ""

/-- Lines 227 to 233 of the handler, the part the spec calls `computeFrame`:
`serverAnswer.Vertices` is allocated with the length of `origVertices`, the
loop stores the projection of each rotated corner at its index, and
`serverAnswer.Angle` is set. -/
def computeFrame {R : Type} [Field R] (M : MathLib R) (serverAnswer : ServerAnswer R)
    (angle : Int) : ServerAnswer R :=
  let sa1 := { serverAnswer with
    Vertices := List.replicate (origVertices R).length (⟨0, 0⟩ : Point2D R) }
  let sa2 := (origVertices R).enum.foldl
    (fun (sa : ServerAnswer R) (ip : Nat × Point3D R) =>
      let rotP3d := rotateZ M (rotateY M (rotateX M ip.2 angle) angle) angle
      { sa with Vertices := sa.Vertices.set ip.1 (project rotP3d) })
    sa1
  { sa2 with Angle := angle }

/-- What one run of the handler leaves behind: the shared `serverAnswer`
variable after the run, the content type and the status code it set on the
response writer, and either the record that was encoded into the response body
or the error the handler panicked with. -/
structure Served (R : Type) where
  serverAnswer : ServerAnswer R
  contentType : String
  statusCode : Nat
  result : Except NumError (ServerAnswer R)

/-- The handler registered for `/computeVertices`, run without a step of
another run in between (`serveAlone_eq` relates it to the steps of
`schedStep`).  The header and the status 200 are set first; a parse error of the angle is a panic with that error,
before any assignment to `serverAnswer`.  `json.Encoder.Encode` is given the
updated `serverAnswer`; it fails on a write error of the connection, which is
outside this model, or on a value that has no JSON form (a float that is not
finite), which the numbers of this model never are, so the second `panic` of
the handler has no counterpart here. -/
def computeVertices {R : Type} [Field R] (M : MathLib R) (intSize : Nat)
    (serverAnswer : ServerAnswer R) (r : Request) : Served R :=
  let contentType := "application/json; charset=UTF-8"
  let statusOK := 200
  let angleQuery := r.queryGet
  match Atoi intSize angleQuery with
  | .error err => ⟨serverAnswer, contentType, statusOK, .error err⟩
  | .ok angle =>
    let sa := computeFrame M serverAnswer angle
    ⟨sa, contentType, statusOK, .ok sa⟩

/-! ## Handler runs that share the record -/

/-- The statements of one run of the handler that touch the shared
`serverAnswer`, after the angle was parsed: the allocation of line 227, the
store of lines 229 and 230 for one index, the assignment of line 233 and the
encoding of line 234. -/
inductive HandlerStep where
  | alloc : HandlerStep
  | store (index : Nat) : HandlerStep
  | setAngle : HandlerStep
  | encode : HandlerStep
deriving DecidableEq

/-- The steps of one run, in program order. -/
def handlerSteps (R : Type) [Field R] : List HandlerStep :=
  .alloc :: ((List.range (origVertices R).length).map .store ++ [.setAngle, .encode])

/-- The effect of one step of a run with angle `angle` on the shared record.
The corner of a store comes from `origVertices`, the rotated point is local to
the run, and the target is whatever slice `serverAnswer.Vertices` holds at
that moment. -/
def stepShared {R : Type} [Field R] (M : MathLib R) (angle : Int) (st : HandlerStep)
    (serverAnswer : ServerAnswer R) : ServerAnswer R :=
  match st with
  | .alloc =>
    { serverAnswer with
      Vertices := List.replicate (origVertices R).length (⟨0, 0⟩ : Point2D R) }
  | .store index =>
    match (origVertices R)[index]? with
    | some p3d =>
      let rotP3d := rotateZ M (rotateY M (rotateX M p3d angle) angle) angle
      { serverAnswer with Vertices := serverAnswer.Vertices.set index (project rotP3d) }
    | none => serverAnswer
  | .setAngle => { serverAnswer with Angle := angle }
  | .encode => serverAnswer

/-- A run of the handler for a request whose angle was parsed: the angle and
the steps it still has to do.  A request whose angle does not parse panics
before it touches the shared record and is no run here. -/
structure Run where
  angle : Int
  todo : List HandlerStep

/-- The server while requests are being handled: the shared `serverAnswer`,
the runs of the handler (one goroutine each), and the records encoded so far,
each with the index of the run that encoded it. -/
structure System (R : Type) where
  shared : ServerAnswer R
  runs : List Run
  responses : List (Nat × ServerAnswer R)

/-- Run `i` does its next step.  The goroutines of `net/http` share
`serverAnswer` without a lock, so the steps of different runs may come in any
order. -/
def schedStep {R : Type} [Field R] (M : MathLib R) (sys : System R) (i : Nat) : System R :=
  match sys.runs[i]? with
  | none => sys
  | some run =>
    match run.todo with
    | [] => sys
    | st :: rest =>
      let shared := stepShared M run.angle st sys.shared
      { shared := shared
        runs := sys.runs.set i { run with todo := rest }
        responses :=
          match st with
          | .encode => sys.responses ++ [(i, shared)]
          | _ => sys.responses }

/-- The server after the steps named by the schedule `sched`, a list of run
indices, were done in that order. -/
def runSchedule {R : Type} [Field R] (M : MathLib R) (sys : System R) (sched : List Nat) :
    System R :=
  sched.foldl (schedStep M) sys

/-- A request with angle `angle` arrives and its run does all its steps in a
row: no step of another run comes between them. -/
def serveAlone {R : Type} [Field R] (M : MathLib R) (sys : System R) (angle : Int) :
    System R :=
  runSchedule M { sys with runs := sys.runs ++ [⟨angle, handlerSteps R⟩] }
    (List.replicate (handlerSteps R).length sys.runs.length)

/-! ## Readings of the math package -/

/-- The value `math.Pi` has in the product `float64(angle) * math.Pi`: the
untyped constant is converted to `float64`, that is to the double nearest to
pi, `0x400921FB54442D18`. -/
def piFloat64 : ℚ := 884279719003555 / 281474976710656

/-- Go's `math` package over the reals with the real cosine and sine, for a
given value `pi` of the constant `math.Pi`. -/
noncomputable def trigMath (pi : ℝ) : MathLib ℝ :=
  { Pi := pi, Cos := Real.cos, Sin := Real.sin }

/-- The exact reading of Go's `math` package: `math.Pi` is the real number
pi. -/
noncomputable def realMath : MathLib ℝ :=
  trigMath Real.pi

/-- The reading of Go's `math` package in which `math.Pi` is the `float64`
constant that the program multiplies with, and cosine and sine are the real
functions. -/
noncomputable def goMath : MathLib ℝ :=
  trigMath (piFloat64 : ℝ)

/-- A `math` package over the rationals, for evaluating the definitions:
the constant rotation with cosine 3/5 and sine 4/5. -/
def ratMath : MathLib ℚ :=
  { Pi := 22 / 7, Cos := fun _ => 3 / 5, Sin := fun _ => 4 / 5 }

/-- The text of an integer, as the spec words the request parameter: an
optional sign `+` or `-` followed by one or more decimal digits. -/
def IsIntegerText (s : String) : Prop :=
  ∃ sign digits : List Char, s.data = sign ++ digits ∧
    (sign = [] ∨ sign = ['+'] ∨ sign = ['-']) ∧
    digits ≠ [] ∧ ∀ c ∈ digits, c.isDigit = true

/-- A request without a usable angle: the parameter is missing, or its value
is not the text of an integer (the empty value included). -/
def Request.invalidAngle (r : Request) : Prop :=
  ∀ s, r.angle = some s → ¬ IsIntegerText s

/-! ## The face table as the specification words it -/

/-- Coordinate `k` of a point: 0 for X, 1 for Y, 2 for Z. -/
def Point3D.coord {R : Type} (p : Point3D R) : Fin 3 → R
  | 0 => p.X
  | 1 => p.Y
  | 2 => p.Z

/-- The corner an index of the face table names. -/
def cornerAt (R : Type) [Field R] (i : Int) : Point3D R :=
  (origVertices R).getD i.toNat ⟨0, 0, 0⟩

/-- The corners named by `f` lie on one side of the cube: they share the
value of one coordinate. -/
def OnOneSide (R : Type) [Field R] (f : List Int) : Prop :=
  ∃ k : Fin 3, ∀ i ∈ f, ∀ j ∈ f, (cornerAt R i).coord k = (cornerAt R j).coord k

/-- Two corners joined by a cube edge: they differ in exactly one coordinate. -/
def IsCubeEdge {R : Type} (p q : Point3D R) : Prop :=
  ∃ k : Fin 3, p.coord k ≠ q.coord k ∧ ∀ j : Fin 3, j ≠ k → p.coord j = q.coord j

/-- The pairs of corners that are consecutive in the tuple `f`, the last one
paired with the first. -/
def cyclicPairs (f : List Int) : List (Int × Int) :=
  f.zip (f.rotate 1)

/-! ## The transform as the specification words it -/

/-- Spec `rotateX`: with `t = a*pi/180`,
`(x, y, z) ↦ (x, y*cos t - z*sin t, y*sin t + z*cos t)`. -/
def specRotateX {R : Type} [Field R] (pi : R) (cos sin : R → R) (a : Int)
    (p : Point3D R) : Point3D R :=
  let t := (a : R) * pi / 180
  ⟨p.X, p.Y * cos t - p.Z * sin t, p.Y * sin t + p.Z * cos t⟩

/-- Spec `rotateY`: with `t = a*pi/180`,
`(x, y, z) ↦ (z*sin t + x*cos t, y, z*cos t - x*sin t)`. -/
def specRotateY {R : Type} [Field R] (pi : R) (cos sin : R → R) (a : Int)
    (p : Point3D R) : Point3D R :=
  let t := (a : R) * pi / 180
  ⟨p.Z * sin t + p.X * cos t, p.Y, p.Z * cos t - p.X * sin t⟩

/-- Spec `rotateZ`: with `t = a*pi/180`,
`(x, y, z) ↦ (x*cos t - y*sin t, x*sin t + y*cos t, z)`. -/
def specRotateZ {R : Type} [Field R] (pi : R) (cos sin : R → R) (a : Int)
    (p : Point3D R) : Point3D R :=
  let t := (a : R) * pi / 180
  ⟨p.X * cos t - p.Y * sin t, p.X * sin t + p.Y * cos t, p.Z⟩

/-- Spec `project`: `(x, y, z) ↦ (x*128/(3.5+z) + 200, y*128/(3.5+z) + 100)`. -/
def specProject {R : Type} [Field R] (p : Point3D R) : Point2D R :=
  ⟨p.X * 128 / (3.5 + p.Z) + 200, p.Y * 128 / (3.5 + p.Z) + 100⟩

/-- Spec pipeline for one corner: rotate about X, then Y, then Z, all by the
same angle, then project. -/
def specVertex {R : Type} [Field R] (pi : R) (cos sin : R → R) (a : Int)
    (c : Point3D R) : Point2D R :=
  specProject (specRotateZ pi cos sin a (specRotateY pi cos sin a (specRotateX pi cos sin a c)))

end CubeDemo

/-! # Theorems -/

namespace CubeDemo

/-! ## The frame as a record -/

/-- The three rotations and the projection applied to one corner, as the loop
body of the handler does. -/
theorem computeFrame_eq {R : Type} [Field R] (M : MathLib R) (sa : ServerAnswer R)
    (a : Int) :
    computeFrame M sa a =
      { ServerName := sa.ServerName
        Angle := a
        Vertices := (origVertices R).map
          (fun p3d => project (rotateZ M (rotateY M (rotateX M p3d a) a) a))
        PointOrder := sa.PointOrder } := by
  rfl

theorem computeVertices_ok {R : Type} [Field R] (M : MathLib R) (intSize : Nat)
    (sa : ServerAnswer R) (r : Request) (a : Int)
    (h : Atoi intSize r.queryGet = .ok a) :
    computeVertices M intSize sa r =
      ⟨computeFrame M sa a, "application/json; charset=UTF-8", 200, .ok (computeFrame M sa a)⟩ := by
  simp only [computeVertices, h]

theorem computeVertices_error {R : Type} [Field R] (M : MathLib R) (intSize : Nat)
    (sa : ServerAnswer R) (r : Request) (e : NumError)
    (h : Atoi intSize r.queryGet = .error e) :
    computeVertices M intSize sa r = ⟨sa, "application/json; charset=UTF-8", 200, .error e⟩ := by
  simp only [computeVertices, h]

theorem project_eq_spec {R : Type} [Field R] [CharZero R] (p : Point3D R) :
    project p = specProject p := by
  simp only [project, specProject, fov, viewDistance, viewWidth, viewHeight]
  congr 1 <;> norm_num <;> ring

theorem pipeline_eq_spec {R : Type} [Field R] [CharZero R] (M : MathLib R) (a : Int)
    (c : Point3D R) :
    project (rotateZ M (rotateY M (rotateX M c a) a) a) =
      specVertex M.Pi M.Cos M.Sin a c := by
  rw [project_eq_spec]
  rfl

/-! ## What the accepted texts are -/

theorem digitVal_isSome_iff (c : Char) : (digitVal c).isSome = true ↔ c.isDigit = true := by
  unfold digitVal Char.isDigit
  have h : c.val.toNat = c.toNat := rfl
  by_cases h1 : 48 ≤ c.toNat ∧ c.toNat ≤ 57
  · simp only [h1, and_self, if_true, Option.isSome_some, true_iff, Bool.and_eq_true,
      decide_eq_true_eq, UInt32.le_def, Nat.le_eq, ge_iff_le]
    exact ⟨by simpa [h] using h1.1, by simpa [h] using h1.2⟩
  · simp only [h1, if_false, Option.isSome_none, Bool.false_eq_true, false_iff, Bool.and_eq_true,
      decide_eq_true_eq, UInt32.le_def, ge_iff_le]
    intro h2
    exact h1 ⟨by simpa [h] using h2.1, by simpa [h] using h2.2⟩

theorem parseUintLoop_ok_digits (maxVal : Nat) (cs : List Char) (n v : Nat)
    (h : parseUintLoop maxVal cs n = .ok v) : ∀ c ∈ cs, c.isDigit = true := by
  induction cs generalizing n with
  | nil => intro c hc; cases hc
  | cons d ds ih =>
    intro c hc
    unfold parseUintLoop at h
    cases hd : digitVal d with
    | none => rw [hd] at h; cases h
    | some k =>
      rw [hd] at h
      simp only at h
      split at h
      · cases h
      · split at h
        · cases h
        · rcases List.mem_cons.mp hc with rfl | hmem
          · exact (digitVal_isSome_iff c).mp (by rw [hd]; rfl)
          · exact ih _ h c hmem

theorem parseUint_ok_digits (bitSize : Nat) (cs : List Char) (v : Nat)
    (h : parseUint bitSize cs = .ok v) : cs ≠ [] ∧ ∀ c ∈ cs, c.isDigit = true := by
  unfold parseUint at h
  split at h
  · cases h
  · exact ⟨by assumption, parseUintLoop_ok_digits _ _ _ _ h⟩

theorem parseInt_ok_text (bitSize : Nat) (cs : List Char) (v : Int)
    (h : parseInt bitSize cs = .ok v) :
    ∃ sign digits : List Char, cs = sign ++ digits ∧
      (sign = [] ∨ sign = ['+'] ∨ sign = ['-']) ∧
      digits ≠ [] ∧ ∀ c ∈ digits, c.isDigit = true := by
  cases cs with
  | nil => cases h
  | cons c cs =>
    simp only [parseInt] at h
    split at h
    · cases h
    · cases h
    · rename_i un hun
      have hd := parseUint_ok_digits _ _ _ hun
      by_cases hc : c = '+' ∨ c = '-'
      · rw [if_pos hc] at hd
        refine ⟨[c], cs, rfl, ?_, hd.1, hd.2⟩
        rcases hc with rfl | rfl
        · exact Or.inr (Or.inl rfl)
        · exact Or.inr (Or.inr rfl)
      · rw [if_neg hc] at hd
        exact ⟨[], c :: cs, rfl, Or.inl rfl, hd.1, hd.2⟩

theorem Atoi_ok_isIntegerText (intSize : Nat) (s : String) (v : Int)
    (h : Atoi intSize s = .ok v) : IsIntegerText s :=
  parseInt_ok_text intSize s.data v h

theorem Atoi_error_of_not_text (intSize : Nat) (s : String) (h : ¬ IsIntegerText s) :
    ∃ e, Atoi intSize s = .error e := by
  cases hA : Atoi intSize s with
  | error e => exact ⟨e, rfl⟩
  | ok v => exact absurd (Atoi_ok_isIntegerText intSize s v hA) h

theorem not_isIntegerText_empty : ¬ IsIntegerText "" := by
  rintro ⟨sign, digits, h, -, hne, -⟩
  have h2 : sign ++ digits = [] := h.symm
  exact hne (List.append_eq_nil.mp h2).2

theorem invalidAngle_queryGet (r : Request) (h : r.invalidAngle) :
    ¬ IsIntegerText r.queryGet := by
  unfold Request.queryGet
  cases hr : r.angle with
  | none => exact not_isIntegerText_empty
  | some s => exact h s hr

/-! ## Every integer of the range is accepted -/

theorem digitVal_digitChar (d : Nat) (h : d < 10) : digitVal (digitChar d) = some d := by
  interval_cases d <;> rfl

theorem foldl_ge (ds : List Nat) (n : Nat) :
    n ≤ ds.foldl (fun n d => n * 10 + d) n := by
  induction ds generalizing n with
  | nil => exact le_refl n
  | cons d ds ih =>
    simp only [List.foldl_cons]
    exact le_trans (by omega) (ih (n * 10 + d))

theorem parseUintLoop_digits (maxVal : Nat) (ds : List Nat) (hd : ∀ d ∈ ds, d < 10) (n : Nat)
    (h1 : ds.foldl (fun n d => n * 10 + d) n ≤ maxVal)
    (h2 : ds.foldl (fun n d => n * 10 + d) n < 2 ^ 64) :
    parseUintLoop maxVal (ds.map digitChar) n = .ok (ds.foldl (fun n d => n * 10 + d) n) := by
  induction ds generalizing n with
  | nil => rfl
  | cons d ds ih =>
    simp only [List.foldl_cons] at h1 h2 ⊢
    have hge := foldl_ge ds (n * 10 + d)
    have hdv := digitVal_digitChar d (hd d (List.mem_cons_self _ _))
    simp only [List.map_cons, parseUintLoop, hdv]
    have c1 : ¬ ((2 ^ 64 - 1) / 10 + 1 ≤ n) := by omega
    have c2 : ¬ (2 ^ 64 ≤ n * 10 + d ∨ maxVal < n * 10 + d) := by omega
    rw [if_neg c1, if_neg c2]
    exact ih (fun x hx => hd x (List.mem_cons_of_mem _ hx)) _ h1 h2

theorem foldl_digits (n : Nat) :
    (Nat.digits 10 n).reverse.foldl (fun n d => n * 10 + d) 0 = n := by
  rw [List.foldl_reverse]
  have h := Nat.ofDigits_digits 10 n
  rw [Nat.ofDigits_eq_foldr] at h
  simp only [Nat.cast_id] at h
  have hf : (fun (x y : Nat) => y * 10 + x) = (fun (x y : Nat) => x + 10 * y) := by
    funext x y
    omega
  rw [hf]
  exact h

theorem parseUint_natText (bitSize n : Nat) (h1 : n ≤ 2 ^ bitSize - 1) (h2 : n < 2 ^ 64) :
    parseUint bitSize (natText n) = .ok n := by
  unfold parseUint natText
  by_cases hn : n = 0
  · subst hn
    rfl
  · rw [if_neg hn]
    have hne : (Nat.digits 10 n).reverse.map digitChar ≠ [] := by
      simp [Nat.digits_eq_nil_iff_eq_zero, hn]
    rw [if_neg hne]
    have hd : ∀ d ∈ (Nat.digits 10 n).reverse, d < 10 := by
      intro d hd
      exact Nat.digits_lt_base (by norm_num) (List.mem_reverse.mp hd)
    have h := parseUintLoop_digits (2 ^ bitSize - 1) _ hd 0
      (by rw [foldl_digits]; exact h1) (by rw [foldl_digits]; exact h2)
    rw [foldl_digits] at h
    exact h

theorem natText_head (n : Nat) : ∃ c cs, natText n = c :: cs ∧ c ≠ '+' ∧ c ≠ '-' := by
  unfold natText
  by_cases hn : n = 0
  · rw [if_pos hn]
    exact ⟨'0', [], rfl, by decide, by decide⟩
  · rw [if_neg hn]
    cases hl : (Nat.digits 10 n).reverse with
    | nil =>
      exfalso
      have : Nat.digits 10 n = [] := List.reverse_eq_nil_iff.mp hl
      exact hn (Nat.digits_eq_nil_iff_eq_zero.mp this)
    | cons d ds =>
      have hd : d < 10 := by
        have : d ∈ (Nat.digits 10 n).reverse := by rw [hl]; exact List.mem_cons_self _ _
        exact Nat.digits_lt_base (by norm_num) (List.mem_reverse.mp this)
      refine ⟨digitChar d, ds.map digitChar, rfl, ?_, ?_⟩ <;>
        (interval_cases d <;> decide)

theorem parseInt_signed (bitSize : Nat) (c : Char) (cs : List Char) (un : Nat)
    (hc : c = '+' ∨ c = '-') (hu : parseUint bitSize cs = .ok un)
    (h1 : c = '+' → un < 2 ^ (bitSize - 1)) (h2 : c = '-' → un ≤ 2 ^ (bitSize - 1)) :
    parseInt bitSize (c :: cs) = .ok (if c = '-' then - (un : Int) else (un : Int)) := by
  simp only [parseInt]
  rw [if_pos hc, hu]
  have e1 : ¬ (¬ (c = '-') ∧ 2 ^ (bitSize - 1) ≤ un) := by
    rintro ⟨hn, hle⟩
    rcases hc with hp | hm
    · exact absurd (h1 hp) (not_lt.mpr hle)
    · exact hn hm
  have e2 : ¬ ((c = '-') ∧ 2 ^ (bitSize - 1) < un) := by
    rintro ⟨hm, hlt⟩
    exact absurd (h2 hm) (not_le.mpr hlt)
  show (if ¬ (c = '-') ∧ 2 ^ (bitSize - 1) ≤ un then _ else _) = _
  rw [if_neg e1, if_neg e2]

theorem parseInt_unsigned (bitSize : Nat) (c : Char) (cs : List Char) (un : Nat)
    (hp : c ≠ '+') (hm : c ≠ '-') (hu : parseUint bitSize (c :: cs) = .ok un)
    (h1 : un < 2 ^ (bitSize - 1)) :
    parseInt bitSize (c :: cs) = .ok (un : Int) := by
  have hc : ¬ (c = '+' ∨ c = '-') := by
    rintro (h | h)
    · exact hp h
    · exact hm h
  simp only [parseInt]
  rw [if_neg hc, hu]
  have e1 : ¬ (¬ (c = '-') ∧ 2 ^ (bitSize - 1) ≤ un) := by
    rintro ⟨-, hle⟩
    exact absurd h1 (not_lt.mpr hle)
  have e2 : ¬ ((c = '-') ∧ 2 ^ (bitSize - 1) < un) := by
    rintro ⟨h, -⟩
    exact hm h
  show (if ¬ (c = '-') ∧ 2 ^ (bitSize - 1) ≤ un then _ else _) = _
  rw [if_neg e1, if_neg e2, if_neg hm]

/-- Every integer of the `int` range is the value `Atoi` returns on its
decimal text. -/
theorem Atoi_intText (intSize : Nat) (hw1 : 1 ≤ intSize) (hw2 : intSize ≤ 64) (a : Int)
    (h1 : -((2 ^ (intSize - 1) : Nat) : Int) ≤ a) (h2 : a < ((2 ^ (intSize - 1) : Nat) : Int)) :
    Atoi intSize (intText a) = .ok a := by
  have hpow : (2 : Nat) ^ intSize = 2 * 2 ^ (intSize - 1) := by
    rw [← pow_succ']
    congr 1
    omega
  have hle : (2 : Nat) ^ intSize ≤ 2 ^ 64 := Nat.pow_le_pow_right (by norm_num) hw2
  have hpos : 0 < (2 : Nat) ^ (intSize - 1) := Nat.pos_pow_of_pos _ (by norm_num)
  have habs : a.natAbs ≤ 2 ^ (intSize - 1) := by omega
  have hu := parseUint_natText intSize a.natAbs (by omega) (by omega)
  unfold Atoi intText
  by_cases hneg : a < 0
  · rw [if_pos hneg, parseInt_signed intSize '-' _ _ (Or.inr rfl) hu
      (fun h => absurd h (by decide)) (fun _ => habs),
      if_pos rfl]
    congr 1
    omega
  · obtain ⟨c, cs, hc, hp, hm⟩ := natText_head a.natAbs
    rw [if_neg hneg, hc, parseInt_unsigned intSize c cs _ hp hm (hc ▸ hu) (by omega)]
    congr 1
    omega

/-- A request that carries the decimal text of an integer of the `int` range
is served with the frame of that integer. -/
theorem computeVertices_intText {R : Type} [Field R] (M : MathLib R) (intSize : Nat)
    (hw1 : 1 ≤ intSize) (hw2 : intSize ≤ 64) (sa : ServerAnswer R) (a : Int)
    (h1 : -((2 ^ (intSize - 1) : Nat) : Int) ≤ a) (h2 : a < ((2 ^ (intSize - 1) : Nat) : Int)) :
    computeVertices M intSize sa ⟨some (intText a)⟩ =
      ⟨computeFrame M sa a, "application/json; charset=UTF-8", 200,
        .ok (computeFrame M sa a)⟩ :=
  computeVertices_ok M intSize sa ⟨some (intText a)⟩ a (Atoi_intText intSize hw1 hw2 a h1 h2)

/-! ## Claims on the handler -/

/-- C2: a request whose angle parameter is missing, empty or not the text of
an integer makes the handler fail with the parse error before anything is
computed: no record is encoded (so no angle 0 and no vertex list, partial or
empty) and the shared record is left as it was. -/
theorem C2_invalid_angle_fails {R : Type} [Field R] (M : MathLib R) (intSize : Nat)
    (sa : ServerAnswer R) (r : Request) (h : r.invalidAngle) :
    ∃ e, computeVertices M intSize sa r = ⟨sa, "application/json; charset=UTF-8", 200, .error e⟩ := by
  obtain ⟨e, he⟩ := Atoi_error_of_not_text intSize r.queryGet (invalidAngle_queryGet r h)
  exact ⟨e, computeVertices_error M intSize sa r e he⟩

theorem not_isIntegerText_4x : ¬ IsIntegerText "4x" := by
  rintro ⟨sign, digits, h, hs, -, hd⟩
  have h2 : ['4', 'x'] = sign ++ digits := h
  rcases hs with rfl | rfl | rfl
  · have hx : 'x' ∈ digits := by rw [← List.nil_append digits, ← h2]; simp
    exact absurd (hd 'x' hx) (by decide)
  · simp at h2
  · simp at h2

/-- Witness of C2: the request `angle=4x`. -/
theorem C2_invalid_angle_fails_witness :
    Request.invalidAngle ⟨some "4x"⟩ ∧
    ∃ e, computeVertices ratMath 64 (initServerAnswer ℚ "cube" "") ⟨some "4x"⟩
      = ⟨initServerAnswer ℚ "cube" "", "application/json; charset=UTF-8", 200, .error e⟩ :=
  have h : Request.invalidAngle ⟨some "4x"⟩ := fun s hs => by
    cases hs
    exact not_isIntegerText_4x
  ⟨h, C2_invalid_angle_fails ratMath 64 _ _ h⟩

/-! ## Runs of the handler, alone and interleaved -/

theorem stepShared_keeps_config {R : Type} [Field R] (M : MathLib R) (angle : Int)
    (st : HandlerStep) (sa : ServerAnswer R) :
    (stepShared M angle st sa).ServerName = sa.ServerName ∧
    (stepShared M angle st sa).PointOrder = sa.PointOrder := by
  cases st with
  | alloc => exact ⟨rfl, rfl⟩
  | store index =>
    simp only [stepShared]
    split <;> simp
  | setAngle => exact ⟨rfl, rfl⟩
  | encode => exact ⟨rfl, rfl⟩

theorem schedStep_keeps_config {R : Type} [Field R] (M : MathLib R) (sys : System R)
    (i : Nat) :
    (schedStep M sys i).shared.ServerName = sys.shared.ServerName ∧
    (schedStep M sys i).shared.PointOrder = sys.shared.PointOrder := by
  unfold schedStep
  split
  · exact ⟨rfl, rfl⟩
  · split
    · exact ⟨rfl, rfl⟩
    · exact stepShared_keeps_config M _ _ sys.shared

/-- No schedule, however the runs interleave, changes the server name or the
face table of the shared record. -/
theorem runSchedule_keeps_config {R : Type} [Field R] (M : MathLib R) (sys : System R)
    (sched : List Nat) :
    (runSchedule M sys sched).shared.ServerName = sys.shared.ServerName ∧
    (runSchedule M sys sched).shared.PointOrder = sys.shared.PointOrder := by
  induction sched generalizing sys with
  | nil => exact ⟨rfl, rfl⟩
  | cons i rest ih =>
    have h1 := schedStep_keeps_config M sys i
    have h2 := ih (schedStep M sys i)
    simp only [runSchedule, List.foldl_cons] at h2 ⊢
    exact ⟨h2.1.trans h1.1, h2.2.trans h1.2⟩

theorem schedStep_last {R : Type} [Field R] (M : MathLib R) (sa : ServerAnswer R)
    (runs : List Run) (resp : List (Nat × ServerAnswer R)) (angle : Int) (st : HandlerStep)
    (rest : List HandlerStep) :
    schedStep M ⟨sa, runs ++ [⟨angle, st :: rest⟩], resp⟩ runs.length =
      ⟨stepShared M angle st sa, runs ++ [⟨angle, rest⟩],
        match st with
        | .encode => resp ++ [(runs.length, stepShared M angle st sa)]
        | _ => resp⟩ := by
  simp [schedStep]

/-- A run that does all its steps in a row leaves the record of
`computeFrame` in the shared variable and encodes that record. -/
theorem serveAlone_eq {R : Type} [Field R] (M : MathLib R) (sys : System R) (angle : Int) :
    serveAlone M sys angle =
      ⟨computeFrame M sys.shared angle, sys.runs ++ [⟨angle, []⟩],
        sys.responses ++ [(sys.runs.length, computeFrame M sys.shared angle)]⟩ := by
  obtain ⟨sa, runs, resp⟩ := sys
  simp only [serveAlone, handlerSteps, origVertices, List.length, List.range, List.range.loop,
    List.map, List.cons_append, List.nil_append, List.replicate, runSchedule, List.foldl,
    schedStep_last]
  rfl

/-- C4, as stated, fails when two runs of the handler overlap: the request
`angle=46` does everything up to its assignment of `Angle`, the request
`angle=8` does the same, and then the first request encodes the shared record:
it is answered with angle 8. -/
theorem C4_overlap_answers_other_angle :
    Atoi 64 (Request.queryGet ⟨some "46"⟩) = .ok 46 ∧
    Atoi 64 (Request.queryGet ⟨some "8"⟩) = .ok 8 ∧
    ((runSchedule ratMath
        ⟨initServerAnswer ℚ "cube" "", [⟨46, handlerSteps ℚ⟩, ⟨8, handlerSteps ℚ⟩], []⟩
        (List.replicate 10 0 ++ List.replicate 10 1 ++ [0])).responses.map
      (fun p => (p.1, p.2.Angle))) = [(0, 8)] := by
  refine ⟨rfl, rfl, ?_⟩
  rfl

/-- C4, amended: whatever runs of the handler came before and however they
interleaved, a request with a valid integer angle whose own run is not
overlapped by another run is answered with exactly 8 vertices, the fixed
`pointOrder` table, the server name configured at start (the value of
`CUBEHOST` when it is set, the host name otherwise) and its own angle. -/
theorem C4_response_shape {R : Type} [Field R] (M : MathLib R) (intSize : Nat)
    (name envName : String) (runs : List Run) (sched : List Nat) (r : Request) (a : Int)
    (h : Atoi intSize r.queryGet = .ok a) :
    ∃ out,
      (computeVertices M intSize
        (runSchedule M ⟨initServerAnswer R name envName, runs, []⟩ sched).shared r).result
          = .ok out ∧
      (serveAlone M (runSchedule M ⟨initServerAnswer R name envName, runs, []⟩ sched)
          a).responses =
        (runSchedule M ⟨initServerAnswer R name envName, runs, []⟩ sched).responses ++
          [((runSchedule M ⟨initServerAnswer R name envName, runs, []⟩ sched).runs.length,
            out)] ∧
      out.Vertices.length = 8 ∧
      out.PointOrder =
        [[0, 1, 2, 3], [1, 5, 6, 2], [5, 4, 7, 6], [4, 0, 3, 7], [0, 4, 5, 1], [3, 2, 6, 7]] ∧
      out.ServerName = (if envName ≠ "" then envName else name) ∧
      out.Angle = a := by
  have hc := runSchedule_keeps_config M ⟨initServerAnswer R name envName, runs, []⟩ sched
  refine ⟨_, by rw [computeVertices_ok M intSize _ r a h], by rw [serveAlone_eq],
    ?_, ?_, ?_, ?_⟩
  · rw [computeFrame_eq]; rfl
  · rw [computeFrame_eq]; exact hc.2
  · rw [computeFrame_eq]; exact hc.1
  · rw [computeFrame_eq]

/-- Witness of the amended C4: `angle=-7`, not overlapped, after the runs for
the angles 30 and 12 interleaved, with `CUBEHOST` unset. -/
theorem C4_response_shape_witness :
    Atoi 64 (Request.queryGet ⟨some "-7"⟩) = .ok (-7) ∧
    ∃ out,
      (computeVertices ratMath 64
        (runSchedule ratMath
          ⟨initServerAnswer ℚ "cube" "", [⟨30, handlerSteps ℚ⟩, ⟨12, handlerSteps ℚ⟩], []⟩
          [0, 1, 1, 0, 0, 1]).shared ⟨some "-7"⟩).result = .ok out ∧
      (serveAlone ratMath
          (runSchedule ratMath
            ⟨initServerAnswer ℚ "cube" "", [⟨30, handlerSteps ℚ⟩, ⟨12, handlerSteps ℚ⟩], []⟩
            [0, 1, 1, 0, 0, 1]) (-7)).responses =
        (runSchedule ratMath
          ⟨initServerAnswer ℚ "cube" "", [⟨30, handlerSteps ℚ⟩, ⟨12, handlerSteps ℚ⟩], []⟩
          [0, 1, 1, 0, 0, 1]).responses ++
          [((runSchedule ratMath
            ⟨initServerAnswer ℚ "cube" "", [⟨30, handlerSteps ℚ⟩, ⟨12, handlerSteps ℚ⟩], []⟩
            [0, 1, 1, 0, 0, 1]).runs.length, out)] ∧
      out.Vertices.length = 8 ∧
      out.PointOrder =
        [[0, 1, 2, 3], [1, 5, 6, 2], [5, 4, 7, 6], [4, 0, 3, 7], [0, 4, 5, 1], [3, 2, 6, 7]] ∧
      out.ServerName = (if "" ≠ "" then "" else "cube") ∧
      out.Angle = -7 :=
  ⟨rfl, C4_response_shape ratMath 64 "cube" ""
    [⟨30, handlerSteps ℚ⟩, ⟨12, handlerSteps ℚ⟩] [0, 1, 1, 0, 0, 1] ⟨some "-7"⟩ (-7) rfl⟩

/-- C7, as stated, fails: the first valid call changes the shared record.
Before the request `angle=10` the record holds angle 0 and no vertices, after
it angle 10 and 8 vertices. -/
theorem C7_shared_record_changes :
    Atoi 64 (Request.queryGet ⟨some "10"⟩) = .ok 10 ∧
    (initServerAnswer ℚ "cube" "").Angle = 0 ∧
    (initServerAnswer ℚ "cube" "").Vertices.length = 0 ∧
    (computeVertices ratMath 64 (initServerAnswer ℚ "cube" "")
      ⟨some "10"⟩).serverAnswer.Angle = 10 ∧
    (computeVertices ratMath 64 (initServerAnswer ℚ "cube" "")
      ⟨some "10"⟩).serverAnswer.Vertices.length = 8 ∧
    (computeVertices ratMath 64 (initServerAnswer ℚ "cube" "")
      ⟨some "10"⟩).serverAnswer ≠ initServerAnswer ℚ "cube" "" := by
  refine ⟨rfl, rfl, rfl, rfl, rfl, ?_⟩
  intro h
  have h2 := congrArg ServerAnswer.Angle h
  exact absurd h2 (by decide)

/-- C7, amended: a call with a valid integer angle `a` whose run is not
overlapped by another run overwrites the `Angle` and `Vertices` fields of the
shared record (with `a` and the 8 vertices of the frame) and leaves
`ServerName` and `PointOrder` as they were; the record it encodes is made of
`a`, the frame of `a` and the `ServerName` and `PointOrder` the server started
with, whatever runs came before it and however they interleaved. -/
theorem C7_call_overwrites_and_is_independent {R : Type} [Field R] (M : MathLib R)
    (intSize : Nat) (sa0 : ServerAnswer R) (runs : List Run) (sched : List Nat)
    (r : Request) (a : Int) (h : Atoi intSize r.queryGet = .ok a) :
    (serveAlone M (runSchedule M ⟨sa0, runs, []⟩ sched) a).shared =
      { ServerName := sa0.ServerName
        Angle := a
        Vertices := (origVertices R).map
          (fun p3d => project (rotateZ M (rotateY M (rotateX M p3d a) a) a))
        PointOrder := sa0.PointOrder } ∧
    (serveAlone M (runSchedule M ⟨sa0, runs, []⟩ sched) a).responses =
      (runSchedule M ⟨sa0, runs, []⟩ sched).responses ++
        [((runSchedule M ⟨sa0, runs, []⟩ sched).runs.length,
          { ServerName := sa0.ServerName
            Angle := a
            Vertices := (origVertices R).map
              (fun p3d => project (rotateZ M (rotateY M (rotateX M p3d a) a) a))
            PointOrder := sa0.PointOrder })] ∧
    (computeVertices M intSize (runSchedule M ⟨sa0, runs, []⟩ sched).shared r).result =
      .ok
        { ServerName := sa0.ServerName
          Angle := a
          Vertices := (origVertices R).map
            (fun p3d => project (rotateZ M (rotateY M (rotateX M p3d a) a) a))
          PointOrder := sa0.PointOrder } := by
  have hc := runSchedule_keeps_config M ⟨sa0, runs, []⟩ sched
  have hf : computeFrame M (runSchedule M ⟨sa0, runs, []⟩ sched).shared a =
      { ServerName := sa0.ServerName
        Angle := a
        Vertices := (origVertices R).map
          (fun p3d => project (rotateZ M (rotateY M (rotateX M p3d a) a) a))
        PointOrder := sa0.PointOrder } := by
    rw [computeFrame_eq, hc.1, hc.2]
  refine ⟨?_, ?_, ?_⟩
  · rw [serveAlone_eq, hf]
  · rw [serveAlone_eq, hf]
  · rw [computeVertices_ok M intSize _ r a h, hf]

/-- Witness of the amended C7: the request `angle=10`, not overlapped, after
three steps of the run for angle 30. -/
theorem C7_call_overwrites_and_is_independent_witness :
    Atoi 64 (Request.queryGet ⟨some "10"⟩) = .ok 10 ∧
    (serveAlone ratMath
      (runSchedule ratMath ⟨initServerAnswer ℚ "cube" "", [⟨30, handlerSteps ℚ⟩], []⟩
        [0, 0, 0]) 10).shared =
      { ServerName := (initServerAnswer ℚ "cube" "").ServerName
        Angle := 10
        Vertices := (origVertices ℚ).map
          (fun p3d => project (rotateZ ratMath (rotateY ratMath (rotateX ratMath p3d 10) 10) 10))
        PointOrder := (initServerAnswer ℚ "cube" "").PointOrder } :=
  ⟨rfl, (C7_call_overwrites_and_is_independent ratMath 64 (initServerAnswer ℚ "cube" "")
    [⟨30, handlerSteps ℚ⟩] [0, 0, 0] ⟨some "10"⟩ 10 rfl).1⟩

/-! ## The transform over the reals -/

theorem rotateX_zero (pi : ℝ) (p : Point3D ℝ) : rotateX (trigMath pi) p 0 = p := by
  simp [rotateX, trigMath]

theorem rotateY_zero (pi : ℝ) (p : Point3D ℝ) : rotateY (trigMath pi) p 0 = p := by
  simp [rotateY, trigMath]

theorem rotateZ_zero (pi : ℝ) (p : Point3D ℝ) : rotateZ (trigMath pi) p 0 = p := by
  simp [rotateZ, trigMath]

theorem project_corner0 : project (⟨-1, 1, -1⟩ : Point3D ℝ) = ⟨148.8, 151.2⟩ := by
  simp only [project, fov, viewDistance, viewWidth, viewHeight]
  congr 1 <;> norm_num

theorem frame_zero_vertices (pi : ℝ) (sa : ServerAnswer ℝ) :
    (computeFrame (trigMath pi) sa 0).Vertices = (origVertices ℝ).map project := by
  rw [computeFrame_eq]
  exact List.map_congr_left
    (fun c _ => by rw [rotateX_zero, rotateY_zero, rotateZ_zero])

/-- C5: rotation by angle 0 is the identity for each of the three rotations,
so the vertices of the frame for angle 0 are the projections of the corners;
for the first corner, (-1, 1, -1), that is the point (148.8, 151.2).  This
holds whatever the value `pi` of `math.Pi` is. -/
theorem C5_angle_zero_is_identity (pi : ℝ) :
    (∀ p : Point3D ℝ,
      rotateX (trigMath pi) p 0 = p ∧ rotateY (trigMath pi) p 0 = p ∧
        rotateZ (trigMath pi) p 0 = p) ∧
    (∀ sa : ServerAnswer ℝ,
      (computeFrame (trigMath pi) sa 0).Vertices = (origVertices ℝ).map project) ∧
    (origVertices ℝ)[0]? = some ⟨-1, 1, -1⟩ ∧
    project (⟨-1, 1, -1⟩ : Point3D ℝ) = ⟨148.8, 151.2⟩ ∧
    (∀ sa : ServerAnswer ℝ,
      (computeFrame (trigMath pi) sa 0).Vertices[0]? = some ⟨148.8, 151.2⟩) := by
  refine ⟨fun p => ⟨rotateX_zero pi p, rotateY_zero pi p, rotateZ_zero pi p⟩,
    frame_zero_vertices pi, rfl, project_corner0, ?_⟩
  intro sa
  rw [frame_zero_vertices pi sa, List.getElem?_map]
  show some (project (⟨-1, 1, -1⟩ : Point3D ℝ)) = _
  rw [project_corner0]

theorem piFloat64_real : ((piFloat64 : ℚ) : ℝ) = 884279719003555 / 281474976710656 := by
  simp only [piFloat64]
  norm_num

theorem piFloat64_range : 0 < ((piFloat64 : ℚ) : ℝ) ∧ ((piFloat64 : ℚ) : ℝ) < 2 * Real.pi := by
  have h := Real.pi_gt_three
  rw [piFloat64_real]
  constructor
  · norm_num
  · have h4 : (884279719003555 / 281474976710656 : ℝ) < 4 := by norm_num
    linarith

/-- C6: the order of the three rotations matters: for the point (1, 1, 1) and
the angle 45, rotating about X, Y, Z in that order and rotating about Z, Y, X
give different points.  This holds for every value `pi` of `math.Pi` between
0 and two half-turns, so for the real number pi and for its float64 value. -/
theorem C6_rotation_order_matters (pi : ℝ) (h0 : 0 < pi) (h1 : pi < 2 * Real.pi) :
    rotateZ (trigMath pi) (rotateY (trigMath pi) (rotateX (trigMath pi) ⟨1, 1, 1⟩ 45) 45) 45 ≠
      rotateX (trigMath pi) (rotateY (trigMath pi) (rotateZ (trigMath pi) ⟨1, 1, 1⟩ 45) 45)
        45 := by
  intro h
  have hx := congrArg Point3D.X h
  simp only [rotateX, rotateY, rotateZ, trigMath] at hx
  have hr : ((45 : Int) : ℝ) * pi / 180 = pi / 4 := by
    push_cast
    ring
  rw [hr] at hx
  have hs : 0 < Real.sin (pi / 4) :=
    Real.sin_pos_of_pos_of_lt_pi (by linarith) (by linarith)
  have hc : 0 < Real.cos (pi / 4) :=
    Real.cos_pos_of_mem_Ioo ⟨by linarith, by linarith⟩
  have hs1 : Real.sin (pi / 4) ≤ 1 := Real.sin_le_one _
  have hpy := Real.sin_sq_add_cos_sq (pi / 4)
  have key : Real.sin (pi / 4) ^ 2 * (Real.cos (pi / 4) + 1 - Real.sin (pi / 4)) = 0 := by
    linear_combination hx - Real.sin (pi / 4) * hpy
  have hpos : 0 < Real.sin (pi / 4) ^ 2 * (Real.cos (pi / 4) + 1 - Real.sin (pi / 4)) :=
    mul_pos (pow_pos hs 2) (by linarith)
  linarith

/-- Witness of C6: `math.Pi` as the real number pi. -/
theorem C6_rotation_order_matters_witness :
    (0 < Real.pi ∧ Real.pi < 2 * Real.pi) ∧
    rotateZ realMath (rotateY realMath (rotateX realMath ⟨1, 1, 1⟩ 45) 45) 45 ≠
      rotateX realMath (rotateY realMath (rotateZ realMath ⟨1, 1, 1⟩ 45) 45) 45 :=
  ⟨⟨Real.pi_pos, by linarith [Real.pi_pos]⟩,
    C6_rotation_order_matters Real.pi Real.pi_pos (by linarith [Real.pi_pos])⟩

theorem rotateX_normSq (pi : ℝ) (p : Point3D ℝ) (a : Int) :
    (rotateX (trigMath pi) p a).X ^ 2 + (rotateX (trigMath pi) p a).Y ^ 2 +
      (rotateX (trigMath pi) p a).Z ^ 2 = p.X ^ 2 + p.Y ^ 2 + p.Z ^ 2 := by
  simp only [rotateX, trigMath]
  have h := Real.sin_sq_add_cos_sq ((a : ℝ) * pi / 180)
  linear_combination (p.Y ^ 2 + p.Z ^ 2) * h

theorem rotateY_normSq (pi : ℝ) (p : Point3D ℝ) (a : Int) :
    (rotateY (trigMath pi) p a).X ^ 2 + (rotateY (trigMath pi) p a).Y ^ 2 +
      (rotateY (trigMath pi) p a).Z ^ 2 = p.X ^ 2 + p.Y ^ 2 + p.Z ^ 2 := by
  simp only [rotateY, trigMath]
  have h := Real.sin_sq_add_cos_sq ((a : ℝ) * pi / 180)
  linear_combination (p.X ^ 2 + p.Z ^ 2) * h

theorem rotateZ_normSq (pi : ℝ) (p : Point3D ℝ) (a : Int) :
    (rotateZ (trigMath pi) p a).X ^ 2 + (rotateZ (trigMath pi) p a).Y ^ 2 +
      (rotateZ (trigMath pi) p a).Z ^ 2 = p.X ^ 2 + p.Y ^ 2 + p.Z ^ 2 := by
  simp only [rotateZ, trigMath]
  have h := Real.sin_sq_add_cos_sq ((a : ℝ) * pi / 180)
  linear_combination (p.X ^ 2 + p.Y ^ 2) * h

theorem corner_normSq (c : Point3D ℝ) (hc : c ∈ origVertices ℝ) :
    c.X ^ 2 + c.Y ^ 2 + c.Z ^ 2 = 3 := by
  simp only [origVertices, List.mem_cons, List.mem_singleton, List.not_mem_nil, or_false] at hc
  rcases hc with rfl | rfl | rfl | rfl | rfl | rfl | rfl | rfl <;> norm_num

theorem rotated_corner_normSq (pi : ℝ) (c : Point3D ℝ) (hc : c ∈ origVertices ℝ) (a : Int) :
    (rotateZ (trigMath pi) (rotateY (trigMath pi) (rotateX (trigMath pi) c a) a) a).X ^ 2 +
      (rotateZ (trigMath pi) (rotateY (trigMath pi) (rotateX (trigMath pi) c a) a) a).Y ^ 2 +
      (rotateZ (trigMath pi) (rotateY (trigMath pi) (rotateX (trigMath pi) c a) a) a).Z ^ 2
      = 3 := by
  rw [rotateZ_normSq, rotateY_normSq, rotateX_normSq, corner_normSq c hc]

theorem viewDistance_real : ((viewDistance : ℚ) : ℝ) = 7 / 2 := by
  simp only [viewDistance]
  norm_num

/-- C8: for every integer angle and every one of the 8 corners, the rotated
corner `q` has `viewDistance + q.Z > 0`, so the denominator in `project` is
never zero.  This holds whatever the value `pi` of `math.Pi` is. -/
theorem C8_projection_denominator_positive (pi : ℝ) (a : Int) (c : Point3D ℝ)
    (hc : c ∈ origVertices ℝ) :
    0 < (viewDistance : ℝ) +
        (rotateZ (trigMath pi) (rotateY (trigMath pi) (rotateX (trigMath pi) c a) a) a).Z ∧
    (viewDistance : ℝ) +
        (rotateZ (trigMath pi) (rotateY (trigMath pi) (rotateX (trigMath pi) c a) a) a).Z
      ≠ 0 := by
  have h := rotated_corner_normSq pi c hc a
  have hpos : 0 < (viewDistance : ℝ) +
      (rotateZ (trigMath pi) (rotateY (trigMath pi) (rotateX (trigMath pi) c a) a) a).Z := by
    rw [viewDistance_real]
    nlinarith [sq_nonneg
        (rotateZ (trigMath pi) (rotateY (trigMath pi) (rotateX (trigMath pi) c a) a) a).X,
      sq_nonneg
        (rotateZ (trigMath pi) (rotateY (trigMath pi) (rotateX (trigMath pi) c a) a) a).Y,
      sq_nonneg
        ((rotateZ (trigMath pi) (rotateY (trigMath pi) (rotateX (trigMath pi) c a) a) a).Z
          - 2)]
  exact ⟨hpos, ne_of_gt hpos⟩

/-- Witness of C8: the corner (1, -1, 1) at angle 200, with the float64 value
of `math.Pi`. -/
theorem C8_projection_denominator_positive_witness :
    (⟨1, -1, 1⟩ : Point3D ℝ) ∈ origVertices ℝ ∧
    0 < (viewDistance : ℝ) +
        (rotateZ goMath (rotateY goMath (rotateX goMath ⟨1, -1, 1⟩ 200) 200) 200).Z :=
  have h : (⟨1, -1, 1⟩ : Point3D ℝ) ∈ origVertices ℝ := by simp [origVertices]
  ⟨h, (C8_projection_denominator_positive (piFloat64 : ℝ) 200 _ h).1⟩

theorem project_in_viewport (q : Point3D ℝ) (h : q.X ^ 2 + q.Y ^ 2 + q.Z ^ 2 = 3) :
    0 < (project q).X ∧ (project q).X < 400 ∧ 0 < (project q).Y ∧ (project q).Y < 200 := by
  have hd : 0 < 7 / 2 + q.Z := by
    nlinarith [sq_nonneg q.X, sq_nonneg q.Y, sq_nonneg (q.Z - 2)]
  simp only [project, fov, viewWidth, viewHeight, viewDistance_real]
  have e1 : q.X * ((128 : ℕ) / (7 / 2 + q.Z)) = 128 * q.X / (7 / 2 + q.Z) := by
    push_cast; ring
  have e2 : q.Y * ((128 : ℕ) / (7 / 2 + q.Z)) = 128 * q.Y / (7 / 2 + q.Z) := by
    push_cast; ring
  have x1 : -200 < 128 * q.X / (7 / 2 + q.Z) := by
    rw [lt_div_iff₀ hd]
    nlinarith [sq_nonneg q.Y, sq_nonneg (200 * q.X - 128 * q.Z), sq_nonneg (128 * q.X + 200 * q.Z)]
  have x2 : 128 * q.X / (7 / 2 + q.Z) < 200 := by
    rw [div_lt_iff₀ hd]
    nlinarith [sq_nonneg q.Y, sq_nonneg (200 * q.X + 128 * q.Z), sq_nonneg (128 * q.X - 200 * q.Z)]
  have y1 : -100 < 128 * q.Y / (7 / 2 + q.Z) := by
    rw [lt_div_iff₀ hd]
    nlinarith [sq_nonneg q.X, sq_nonneg (100 * q.Y - 128 * q.Z), sq_nonneg (128 * q.Y + 100 * q.Z)]
  have y2 : 128 * q.Y / (7 / 2 + q.Z) < 100 := by
    rw [div_lt_iff₀ hd]
    nlinarith [sq_nonneg q.X, sq_nonneg (100 * q.Y + 128 * q.Z), sq_nonneg (128 * q.Y - 100 * q.Z)]
  rw [e1, e2]
  norm_num
  refine ⟨by linarith, by linarith, by linarith, by linarith⟩

/-- C10: for every integer angle, each of the 8 vertices of the frame lies
strictly inside the viewport: `0 < x < viewWidth` and `0 < y < viewHeight`,
that is 400 by 200.  This holds whatever the value `pi` of `math.Pi` is. -/
theorem C10_vertices_inside_viewport (pi : ℝ) (a : Int) (sa : ServerAnswer ℝ) (i : Fin 8) :
    ∃ v, (computeFrame (trigMath pi) sa a).Vertices[i.val]? = some v ∧
      0 < v.X ∧ v.X < (viewWidth : ℝ) ∧ 0 < v.Y ∧ v.Y < (viewHeight : ℝ) ∧
      (viewWidth : ℝ) = 400 ∧ (viewHeight : ℝ) = 200 := by
  have hlen : i.val < (origVertices ℝ).length := i.isLt
  have hmem : (origVertices ℝ)[i.val] ∈ origVertices ℝ := List.getElem_mem _
  refine ⟨project (rotateZ (trigMath pi) (rotateY (trigMath pi)
    (rotateX (trigMath pi) ((origVertices ℝ)[i.val]) a) a) a), ?_, ?_⟩
  · rw [computeFrame_eq]
    simp only [List.getElem?_map, List.getElem?_eq_getElem hlen, Option.map_some']
  · have h := project_in_viewport _ (rotated_corner_normSq pi _ hmem a)
    simp only [viewWidth, viewHeight]
    norm_num
    exact h

/-! ## Whole turns -/

theorem rad_shift (a k : Int) :
    ((a + 360 * k : Int) : ℝ) * Real.pi / 180 = (a : ℝ) * Real.pi / 180 + k * (2 * Real.pi) := by
  push_cast
  ring

/-- With `math.Pi` the real number pi the frame has period 360 in the angle. -/
theorem computeFrame_exact_period (sa : ServerAnswer ℝ) (a k : Int) :
    computeFrame realMath sa (a + 360 * k) =
      { computeFrame realMath sa a with Angle := a + 360 * k } := by
  have hc : Real.cos (((a + 360 * k : Int) : ℝ) * Real.pi / 180) =
      Real.cos ((a : ℝ) * Real.pi / 180) := by
    rw [rad_shift, Real.cos_add_int_mul_two_pi]
  have hs : Real.sin (((a + 360 * k : Int) : ℝ) * Real.pi / 180) =
      Real.sin ((a : ℝ) * Real.pi / 180) := by
    rw [rad_shift, Real.sin_add_int_mul_two_pi]
  have hx : ∀ p : Point3D ℝ, rotateX realMath p (a + 360 * k) = rotateX realMath p a := by
    intro p; simp only [rotateX, realMath, trigMath, hc, hs]
  have hy : ∀ p : Point3D ℝ, rotateY realMath p (a + 360 * k) = rotateY realMath p a := by
    intro p; simp only [rotateY, realMath, trigMath, hc, hs]
  have hz : ∀ p : Point3D ℝ, rotateZ realMath p (a + 360 * k) = rotateZ realMath p a := by
    intro p; simp only [rotateZ, realMath, trigMath, hc, hs]
  rw [computeFrame_eq, computeFrame_eq]
  simp only [hx, hy, hz]

/-- The float64 value of `math.Pi` lies below pi by about 1.2246e-16. -/
theorem pi_gap :
    (12246 / 10 ^ 20 : ℝ) < Real.pi - (piFloat64 : ℝ) ∧
      Real.pi - (piFloat64 : ℝ) < (12248 / 10 ^ 20 : ℝ) := by
  have h1 := Real.pi_gt_d20
  have h2 := Real.pi_lt_d20
  rw [piFloat64_real]
  constructor
  · norm_num at h1 ⊢; linarith
  · norm_num at h2 ⊢; linarith

theorem rad_far :
    ((36000000000000000 : Int) : ℝ) * (piFloat64 : ℝ) / 180 =
      -(200000000000000 * (Real.pi - (piFloat64 : ℝ))) +
        ((100000000000000 : Int) : ℝ) * (2 * Real.pi) := by
  push_cast
  ring

theorem far_trig :
    (9996 / 10000 : ℝ) ≤ Real.cos (((36000000000000000 : Int) : ℝ) * (piFloat64 : ℝ) / 180) ∧
    Real.cos (((36000000000000000 : Int) : ℝ) * (piFloat64 : ℝ) / 180) ≤ 1 ∧
    (-245 / 10000 : ℝ) ≤ Real.sin (((36000000000000000 : Int) : ℝ) * (piFloat64 : ℝ) / 180) ∧
    Real.sin (((36000000000000000 : Int) : ℝ) * (piFloat64 : ℝ) / 180) ≤ (-244 / 10000 : ℝ) := by
  obtain ⟨g1, g2⟩ := pi_gap
  rw [rad_far, Real.cos_add_int_mul_two_pi, Real.sin_add_int_mul_two_pi, Real.cos_neg,
    Real.sin_neg]
  set d := 200000000000000 * (Real.pi - (piFloat64 : ℝ)) with hd
  have d1 : (24492 / 1000000 : ℝ) < d := by rw [hd]; linarith
  have d2 : d < (24496 / 1000000 : ℝ) := by rw [hd]; linarith
  have dpos : 0 < d := by linarith
  have c1 := Real.one_sub_sq_div_two_le_cos (x := d)
  have s1 := Real.sin_lt dpos
  have s2 := Real.sin_gt_sub_cube dpos (by linarith)
  have hsq : d ^ 2 < (61 / 100000 : ℝ) := by nlinarith
  have hcu : d ^ 3 < (2 / 100000 : ℝ) := by nlinarith
  refine ⟨by linarith, Real.cos_le_one d, by linarith, by linarith⟩

theorem far_arith (c s : ℝ) (hc1 : 9996 / 10000 ≤ c) (hc2 : c ≤ 1)
    (hs1 : -245 / 10000 ≤ s) (hs2 : s ≤ -244 / 10000) :
    (1498 / 10 : ℝ) <
      (((1 * s + -1 * c) * s + -1 * c) * c - (1 * c - -1 * s) * s) *
        (128 / (7 / 2 + ((1 * s + -1 * c) * c - -1 * s))) + 200 := by
  have hz1a : -10245 / 10000 ≤ s - c := by linarith
  have hz1b : s - c ≤ -10240 / 10000 := by linarith
  have hz2a : -1.0490 ≤ (s - c) * c + s := by nlinarith
  have hz2b : (s - c) * c + s ≤ -1.0479 := by nlinarith
  have hx2a : -0.9751 ≤ (s - c) * s - c := by nlinarith
  have hx2b : (s - c) * s - c ≤ -0.9745 := by nlinarith
  have hy1a : 0.9751 ≤ c + s := by linarith
  have hy1b : c + s ≤ 0.9756 := by linarith
  have hx3a : -0.9513 ≤ ((s - c) * s - c) * c - (c + s) * s := by nlinarith
  have hd : 0 < 7 / 2 + ((s - c) * c + s) := by linarith
  have e1 : (7 / 2 + ((1 * s + -1 * c) * c - -1 * s)) = 7 / 2 + ((s - c) * c + s) := by ring
  have e2 : (((1 * s + -1 * c) * s + -1 * c) * c - (1 * c - -1 * s) * s) =
      ((s - c) * s - c) * c - (c + s) * s := by ring
  rw [e1, e2, ← mul_div_assoc]
  have : -50.2 < (((s - c) * s - c) * c - (c + s) * s) * 128 / (7 / 2 + ((s - c) * c + s)) := by
    rw [lt_div_iff₀ hd]
    nlinarith
  linarith

/-- C3, as stated, fails: the angles 0 and 0 + 360 * 10^14 (a valid `int` on a
64-bit target) are a whole number of turns apart, and the first vertex of the
two frames differs by more than 1 in its x coordinate.  The product
`float64(angle) * math.Pi` uses the float64 value of `math.Pi`, and 2 * 10^14
times its distance to pi is about 0.0245 radians. -/
theorem C3_period_fails_far_out :
    Atoi 64 "36000000000000000" = .ok 36000000000000000 ∧
    (36000000000000000 : Int) = 0 + 360 * 100000000000000 ∧
    ∃ v w,
      (computeFrame goMath (initServerAnswer ℝ "cube" "") 0).Vertices[0]? = some v ∧
      (computeFrame goMath (initServerAnswer ℝ "cube" "")
        36000000000000000).Vertices[0]? = some w ∧
      1 < w.X - v.X := by
  refine ⟨rfl, by norm_num, project (⟨-1, 1, -1⟩ : Point3D ℝ),
    project (rotateZ goMath (rotateY goMath
      (rotateX goMath (⟨-1, 1, -1⟩ : Point3D ℝ) 36000000000000000) 36000000000000000)
      36000000000000000), ?_, ?_, ?_⟩
  · rw [show goMath = trigMath (piFloat64 : ℝ) from rfl, frame_zero_vertices]
    rfl
  · rw [computeFrame_eq]
    rfl
  · obtain ⟨h1, h2, h3, h4⟩ := far_trig
    have h := far_arith _ _ h1 h2 h3 h4
    rw [project_corner0]
    simp only [project, rotateX, rotateY, rotateZ, goMath, trigMath, fov, viewWidth,
      viewHeight, viewDistance_real]
    norm_num at h ⊢
    linarith

/-! ## Frames a few turns apart -/

theorem abs_mul_le_mul (u v U V : ℝ) (hu : |u| ≤ U) (hv : |v| ≤ V) : |u * v| ≤ U * V := by
  rw [abs_mul]
  exact mul_le_mul hu hv (abs_nonneg v) (le_trans (abs_nonneg u) hu)

/-- The two new coordinates of a rotation move by at most `2 * η + 4 * ε`
when the old ones move by at most `η` and cosine and sine by at most `ε`. -/
theorem bilin_close (u v u' v' c s c' s' η ε : ℝ)
    (hu : |u - u'| ≤ η) (hv : |v - v'| ≤ η) (hc : |c - c'| ≤ ε) (hs : |s - s'| ≤ ε)
    (hc1 : |c| ≤ 1) (hs1 : |s| ≤ 1) (hu' : |u'| ≤ 2) (hv' : |v'| ≤ 2) :
    |(u * c - v * s) - (u' * c' - v' * s')| ≤ 2 * η + 4 * ε ∧
    |(u * s + v * c) - (u' * s' + v' * c')| ≤ 2 * η + 4 * ε := by
  have a1 := abs_mul_le_mul _ _ _ _ hu hc1
  have a2 := abs_mul_le_mul _ _ _ _ hu' hc
  have a3 := abs_mul_le_mul _ _ _ _ hv hs1
  have a4 := abs_mul_le_mul _ _ _ _ hv' hs
  have b1 := abs_mul_le_mul _ _ _ _ hu hs1
  have b2 := abs_mul_le_mul _ _ _ _ hu' hs
  have b3 := abs_mul_le_mul _ _ _ _ hv hc1
  have b4 := abs_mul_le_mul _ _ _ _ hv' hc
  constructor
  · have e : (u * c - v * s) - (u' * c' - v' * s') =
        (u - u') * c + u' * (c - c') - ((v - v') * s + v' * (s - s')) := by ring
    rw [e]
    calc |(u - u') * c + u' * (c - c') - ((v - v') * s + v' * (s - s'))|
        ≤ |(u - u') * c + u' * (c - c')| + |(v - v') * s + v' * (s - s')| := abs_sub _ _
      _ ≤ (|(u - u') * c| + |u' * (c - c')|) + (|(v - v') * s| + |v' * (s - s')|) :=
          add_le_add (abs_add _ _) (abs_add _ _)
      _ ≤ 2 * η + 4 * ε := by linarith
  · have e : (u * s + v * c) - (u' * s' + v' * c') =
        (u - u') * s + u' * (s - s') + ((v - v') * c + v' * (c - c')) := by ring
    rw [e]
    calc |(u - u') * s + u' * (s - s') + ((v - v') * c + v' * (c - c'))|
        ≤ |(u - u') * s + u' * (s - s')| + |(v - v') * c + v' * (c - c')| := abs_add _ _
      _ ≤ (|(u - u') * s| + |u' * (s - s')|) + (|(v - v') * c| + |v' * (c - c')|) :=
          add_le_add (abs_add _ _) (abs_add _ _)
      _ ≤ 2 * η + 4 * ε := by linarith

/-- The perspective division moves by at most `289 * η` when the point moves
by at most `η`, for points no farther than 1.74 from the coordinate planes. -/
theorem proj_close (x z x' z' η : ℝ) (hx : |x - x'| ≤ η) (hz : |z - z'| ≤ η)
    (hx' : |x'| ≤ 174 / 100) (hzl : -(174 / 100) ≤ z) (hzl' : -(174 / 100) ≤ z')
    (hzu' : z' ≤ 174 / 100) :
    |x * (128 / (7 / 2 + z)) - x' * (128 / (7 / 2 + z'))| ≤ 289 * η := by
  have hη : 0 ≤ η := le_trans (abs_nonneg _) hx
  have hd : 0 < 7 / 2 + z := by linarith
  have hd' : 0 < 7 / 2 + z' := by linarith
  have hdd : 0 < (7 / 2 + z) * (7 / 2 + z') := mul_pos hd hd'
  have e : x * (128 / (7 / 2 + z)) - x' * (128 / (7 / 2 + z')) =
      (128 * ((x - x') * (7 / 2 + z') - x' * (z - z'))) / ((7 / 2 + z) * (7 / 2 + z')) := by
    have hne : (7 / 2 + z) ≠ 0 := ne_of_gt hd
    have hne' : (7 / 2 + z') ≠ 0 := ne_of_gt hd'
    rw [eq_div_iff (mul_ne_zero hne hne'), sub_mul]
    have t1 : x * (128 / (7 / 2 + z)) * ((7 / 2 + z) * (7 / 2 + z')) =
        x * 128 * (7 / 2 + z') := by
      rw [show x * (128 / (7 / 2 + z)) * ((7 / 2 + z) * (7 / 2 + z')) =
        x * 128 * (7 / 2 + z') * ((7 / 2 + z) / (7 / 2 + z)) by ring, div_self hne, mul_one]
    have t2 : x' * (128 / (7 / 2 + z')) * ((7 / 2 + z) * (7 / 2 + z')) =
        x' * 128 * (7 / 2 + z) := by
      rw [show x' * (128 / (7 / 2 + z')) * ((7 / 2 + z) * (7 / 2 + z')) =
        x' * 128 * (7 / 2 + z) * ((7 / 2 + z') / (7 / 2 + z')) by ring, div_self hne', mul_one]
    rw [t1, t2]
    ring
  rw [e, abs_div, abs_of_pos hdd, div_le_iff₀ hdd]
  have n1 : |(x - x') * (7 / 2 + z')| ≤ η * (524 / 100) :=
    abs_mul_le_mul _ _ _ _ hx (abs_le.mpr ⟨by linarith, by linarith⟩)
  have n2 : |x' * (z - z')| ≤ (174 / 100) * η := abs_mul_le_mul _ _ _ _ hx' hz
  have n3 : |128 * ((x - x') * (7 / 2 + z') - x' * (z - z'))| ≤
      128 * (η * (524 / 100) + 174 / 100 * η) := by
    rw [abs_mul, abs_of_pos (by norm_num : (0 : ℝ) < 128)]
    exact mul_le_mul_of_nonneg_left (le_trans (abs_sub _ _) (add_le_add n1 n2)) (by norm_num)
  have n4 : (176 / 100 : ℝ) * (176 / 100) ≤ (7 / 2 + z) * (7 / 2 + z') :=
    mul_le_mul (by linarith) (by linarith) (by norm_num) (le_of_lt hd)
  nlinarith

theorem trig_close (x d : ℝ) :
    |Real.cos x - Real.cos (x - d)| ≤ |d| ∧ |Real.sin x - Real.sin (x - d)| ≤ |d| := by
  have h := Real.abs_sin_le_abs (x := d / 2)
  have hd : |d / 2| = |d| / 2 := by rw [abs_div]; norm_num
  rw [hd] at h
  constructor
  · rw [Real.cos_sub_cos]
    have e : (x - (x - d)) / 2 = d / 2 := by ring
    rw [e]
    have h2 := abs_mul_le_mul _ _ _ _
      (abs_mul_le_mul (-2) (Real.sin ((x + (x - d)) / 2)) 2 1 (by norm_num)
        (Real.abs_sin_le_one _)) h
    linarith
  · rw [Real.sin_sub_sin]
    have e : (x - (x - d)) / 2 = d / 2 := by ring
    rw [e]
    have h2 := abs_mul_le_mul _ _ _ _
      (abs_mul_le_mul 2 (Real.sin (d / 2)) 2 (|d| / 2) (by norm_num) h)
      (Real.abs_cos_le_one ((x + (x - d)) / 2))
    linarith

theorem coords_bound (q : Point3D ℝ) (h : q.X ^ 2 + q.Y ^ 2 + q.Z ^ 2 = 3) :
    |q.X| ≤ 174 / 100 ∧ |q.Y| ≤ 174 / 100 ∧ |q.Z| ≤ 174 / 100 := by
  refine ⟨abs_le.mpr ⟨?_, ?_⟩, abs_le.mpr ⟨?_, ?_⟩, abs_le.mpr ⟨?_, ?_⟩⟩ <;>
    nlinarith [sq_nonneg q.X, sq_nonneg q.Y, sq_nonneg q.Z]

theorem rotateX_close (pi pi' : ℝ) (a a' : Int) (p p' : Point3D ℝ) (η ε : ℝ)
    (hc : |Real.cos ((a : ℝ) * pi / 180) - Real.cos ((a' : ℝ) * pi' / 180)| ≤ ε)
    (hs : |Real.sin ((a : ℝ) * pi / 180) - Real.sin ((a' : ℝ) * pi' / 180)| ≤ ε)
    (hd : |p.X - p'.X| ≤ η ∧ |p.Y - p'.Y| ≤ η ∧ |p.Z - p'.Z| ≤ η)
    (hb : |p'.X| ≤ 2 ∧ |p'.Y| ≤ 2 ∧ |p'.Z| ≤ 2) :
    |(rotateX (trigMath pi) p a).X - (rotateX (trigMath pi') p' a').X| ≤ 2 * η + 4 * ε ∧
    |(rotateX (trigMath pi) p a).Y - (rotateX (trigMath pi') p' a').Y| ≤ 2 * η + 4 * ε ∧
    |(rotateX (trigMath pi) p a).Z - (rotateX (trigMath pi') p' a').Z| ≤ 2 * η + 4 * ε := by
  have hη : 0 ≤ η := le_trans (abs_nonneg _) hd.1
  have hε : 0 ≤ ε := le_trans (abs_nonneg _) hc
  have h := bilin_close p.Y p.Z p'.Y p'.Z _ _ _ _ η ε hd.2.1 hd.2.2 hc hs
    (Real.abs_cos_le_one _) (Real.abs_sin_le_one _) hb.2.1 hb.2.2
  exact ⟨by simp only [rotateX]; linarith [hd.1], h.1, h.2⟩

theorem rotateY_close (pi pi' : ℝ) (a a' : Int) (p p' : Point3D ℝ) (η ε : ℝ)
    (hc : |Real.cos ((a : ℝ) * pi / 180) - Real.cos ((a' : ℝ) * pi' / 180)| ≤ ε)
    (hs : |Real.sin ((a : ℝ) * pi / 180) - Real.sin ((a' : ℝ) * pi' / 180)| ≤ ε)
    (hd : |p.X - p'.X| ≤ η ∧ |p.Y - p'.Y| ≤ η ∧ |p.Z - p'.Z| ≤ η)
    (hb : |p'.X| ≤ 2 ∧ |p'.Y| ≤ 2 ∧ |p'.Z| ≤ 2) :
    |(rotateY (trigMath pi) p a).X - (rotateY (trigMath pi') p' a').X| ≤ 2 * η + 4 * ε ∧
    |(rotateY (trigMath pi) p a).Y - (rotateY (trigMath pi') p' a').Y| ≤ 2 * η + 4 * ε ∧
    |(rotateY (trigMath pi) p a).Z - (rotateY (trigMath pi') p' a').Z| ≤ 2 * η + 4 * ε := by
  have hη : 0 ≤ η := le_trans (abs_nonneg _) hd.1
  have hε : 0 ≤ ε := le_trans (abs_nonneg _) hc
  have h := bilin_close p.Z p.X p'.Z p'.X _ _ _ _ η ε hd.2.2 hd.1 hc hs
    (Real.abs_cos_le_one _) (Real.abs_sin_le_one _) hb.2.2 hb.1
  exact ⟨h.2, by simp only [rotateY]; linarith [hd.2.1], h.1⟩

theorem rotateZ_close (pi pi' : ℝ) (a a' : Int) (p p' : Point3D ℝ) (η ε : ℝ)
    (hc : |Real.cos ((a : ℝ) * pi / 180) - Real.cos ((a' : ℝ) * pi' / 180)| ≤ ε)
    (hs : |Real.sin ((a : ℝ) * pi / 180) - Real.sin ((a' : ℝ) * pi' / 180)| ≤ ε)
    (hd : |p.X - p'.X| ≤ η ∧ |p.Y - p'.Y| ≤ η ∧ |p.Z - p'.Z| ≤ η)
    (hb : |p'.X| ≤ 2 ∧ |p'.Y| ≤ 2 ∧ |p'.Z| ≤ 2) :
    |(rotateZ (trigMath pi) p a).X - (rotateZ (trigMath pi') p' a').X| ≤ 2 * η + 4 * ε ∧
    |(rotateZ (trigMath pi) p a).Y - (rotateZ (trigMath pi') p' a').Y| ≤ 2 * η + 4 * ε ∧
    |(rotateZ (trigMath pi) p a).Z - (rotateZ (trigMath pi') p' a').Z| ≤ 2 * η + 4 * ε := by
  have hη : 0 ≤ η := le_trans (abs_nonneg _) hd.1
  have hε : 0 ≤ ε := le_trans (abs_nonneg _) hc
  have h := bilin_close p.X p.Y p'.X p'.Y _ _ _ _ η ε hd.1 hd.2.1 hc hs
    (Real.abs_cos_le_one _) (Real.abs_sin_le_one _) hb.1 hb.2.1
  exact ⟨h.1, h.2, by simp only [rotateZ]; linarith [hd.2.2]⟩

theorem bound_two (q : Point3D ℝ) (h : q.X ^ 2 + q.Y ^ 2 + q.Z ^ 2 = 3) :
    |q.X| ≤ 2 ∧ |q.Y| ≤ 2 ∧ |q.Z| ≤ 2 := by
  obtain ⟨h1, h2, h3⟩ := coords_bound q h
  exact ⟨by linarith, by linarith, by linarith⟩

/-- The rotated corner moves by at most `28 * ε` in each coordinate when
cosine and sine of the angle move by at most `ε`. -/
theorem rotated_corner_close (pi pi' : ℝ) (a a' : Int) (c : Point3D ℝ)
    (hmem : c ∈ origVertices ℝ) (ε : ℝ)
    (hc : |Real.cos ((a : ℝ) * pi / 180) - Real.cos ((a' : ℝ) * pi' / 180)| ≤ ε)
    (hs : |Real.sin ((a : ℝ) * pi / 180) - Real.sin ((a' : ℝ) * pi' / 180)| ≤ ε) :
    |(rotateZ (trigMath pi) (rotateY (trigMath pi) (rotateX (trigMath pi) c a) a) a).X -
      (rotateZ (trigMath pi') (rotateY (trigMath pi') (rotateX (trigMath pi') c a') a') a').X|
        ≤ 28 * ε ∧
    |(rotateZ (trigMath pi) (rotateY (trigMath pi) (rotateX (trigMath pi) c a) a) a).Y -
      (rotateZ (trigMath pi') (rotateY (trigMath pi') (rotateX (trigMath pi') c a') a') a').Y|
        ≤ 28 * ε ∧
    |(rotateZ (trigMath pi) (rotateY (trigMath pi) (rotateX (trigMath pi) c a) a) a).Z -
      (rotateZ (trigMath pi') (rotateY (trigMath pi') (rotateX (trigMath pi') c a') a') a').Z|
        ≤ 28 * ε := by
  have n0 := corner_normSq c hmem
  have n1 : (rotateX (trigMath pi') c a').X ^ 2 + (rotateX (trigMath pi') c a').Y ^ 2 +
      (rotateX (trigMath pi') c a').Z ^ 2 = 3 := by rw [rotateX_normSq, n0]
  have n2 : (rotateY (trigMath pi') (rotateX (trigMath pi') c a') a').X ^ 2 +
      (rotateY (trigMath pi') (rotateX (trigMath pi') c a') a').Y ^ 2 +
      (rotateY (trigMath pi') (rotateX (trigMath pi') c a') a').Z ^ 2 = 3 := by
    rw [rotateY_normSq, n1]
  have z0 : |c.X - c.X| ≤ 0 ∧ |c.Y - c.Y| ≤ 0 ∧ |c.Z - c.Z| ≤ 0 := by
    simp
  have s1 := rotateX_close pi pi' a a' c c 0 ε hc hs z0 (bound_two c n0)
  have s2 := rotateY_close pi pi' a a' _ _ (2 * 0 + 4 * ε) ε hc hs s1 (bound_two _ n1)
  have s3 := rotateZ_close pi pi' a a' _ _ (2 * (2 * 0 + 4 * ε) + 4 * ε) ε hc hs s2
    (bound_two _ n2)
  have e : 2 * (2 * (2 * 0 + 4 * ε) + 4 * ε) + 4 * ε = 28 * ε := by ring
  rw [e] at s3
  exact s3

/-- The projected corner moves by at most `8092 * ε` in each coordinate when
cosine and sine of the angle move by at most `ε`. -/
theorem vertex_close (pi pi' : ℝ) (a a' : Int) (c : Point3D ℝ)
    (hmem : c ∈ origVertices ℝ) (ε : ℝ)
    (hc : |Real.cos ((a : ℝ) * pi / 180) - Real.cos ((a' : ℝ) * pi' / 180)| ≤ ε)
    (hs : |Real.sin ((a : ℝ) * pi / 180) - Real.sin ((a' : ℝ) * pi' / 180)| ≤ ε) :
    |(project (rotateZ (trigMath pi) (rotateY (trigMath pi)
        (rotateX (trigMath pi) c a) a) a)).X -
      (project (rotateZ (trigMath pi') (rotateY (trigMath pi')
        (rotateX (trigMath pi') c a') a') a')).X| ≤ 8092 * ε ∧
    |(project (rotateZ (trigMath pi) (rotateY (trigMath pi)
        (rotateX (trigMath pi) c a) a) a)).Y -
      (project (rotateZ (trigMath pi') (rotateY (trigMath pi')
        (rotateX (trigMath pi') c a') a') a')).Y| ≤ 8092 * ε := by
  obtain ⟨dx, dy, dz⟩ := rotated_corner_close pi pi' a a' c hmem ε hc hs
  obtain ⟨b1, b2, b3⟩ := coords_bound _ (rotated_corner_normSq pi c hmem a)
  obtain ⟨b1', b2', b3'⟩ := coords_bound _ (rotated_corner_normSq pi' c hmem a')
  have px := proj_close _ _ _ _ (28 * ε) dx dz b1' (abs_le.mp b3).1 (abs_le.mp b3').1
    (abs_le.mp b3').2
  have py := proj_close _ _ _ _ (28 * ε) dy dz b2' (abs_le.mp b3).1 (abs_le.mp b3').1
    (abs_le.mp b3').2
  simp only [project, fov, viewWidth, viewHeight, viewDistance_real]
  constructor
  · have e : ∀ u v : ℝ, (u + ((400 / 2 : ℕ) : ℝ)) - (v + ((400 / 2 : ℕ) : ℝ)) = u - v := by
      intro u v; ring
    rw [e]
    push_cast
    linarith
  · have e : ∀ u v : ℝ, (u + ((200 / 2 : ℕ) : ℝ)) - (v + ((200 / 2 : ℕ) : ℝ)) = u - v := by
      intro u v; ring
    rw [e]
    push_cast
    linarith

theorem rad_near (a k : Int) :
    ((a + 360 * k : Int) : ℝ) * (piFloat64 : ℝ) / 180 =
      ((a : ℝ) * (piFloat64 : ℝ) / 180 - 2 * (k : ℝ) * (Real.pi - (piFloat64 : ℝ))) +
        k * (2 * Real.pi) := by
  push_cast
  ring

theorem near_trig (a k : Int) (hk : |k| ≤ 100000000) :
    |Real.cos ((a : ℝ) * (piFloat64 : ℝ) / 180) -
      Real.cos (((a + 360 * k : Int) : ℝ) * (piFloat64 : ℝ) / 180)| ≤ 24496 / 10 ^ 12 ∧
    |Real.sin ((a : ℝ) * (piFloat64 : ℝ) / 180) -
      Real.sin (((a + 360 * k : Int) : ℝ) * (piFloat64 : ℝ) / 180)| ≤ 24496 / 10 ^ 12 := by
  obtain ⟨g1, g2⟩ := pi_gap
  have hk' : |(k : ℝ)| ≤ 100000000 := by
    have : ((|k| : Int) : ℝ) ≤ ((100000000 : Int) : ℝ) := Int.cast_le.mpr hk
    rw [Int.cast_abs] at this
    simpa using this
  have hd : |2 * (k : ℝ) * (Real.pi - (piFloat64 : ℝ))| ≤ 24496 / 10 ^ 12 := by
    rw [abs_mul, abs_mul, abs_of_pos (by norm_num : (0 : ℝ) < 2),
      abs_of_pos (by linarith : (0 : ℝ) < Real.pi - (piFloat64 : ℝ))]
    have := mul_le_mul hk' (le_of_lt g2) (by linarith) (by norm_num)
    nlinarith [abs_nonneg (k : ℝ)]
  obtain ⟨t1, t2⟩ := trig_close ((a : ℝ) * (piFloat64 : ℝ) / 180)
    (2 * (k : ℝ) * (Real.pi - (piFloat64 : ℝ)))
  rw [rad_near, Real.cos_add_int_mul_two_pi, Real.sin_add_int_mul_two_pi]
  exact ⟨le_trans t1 hd, le_trans t2 hd⟩

/-- C3, amended: with the float64 value of `math.Pi`, for all integers `a`
and `k` such that `a` and `a + 360 * k` both lie within the range of a 32-bit
`int` (absolute value at most 2^31), each of the 8 vertices of the frame for
`a + 360 * k` lies within 1e-3, in x and in y, of the same vertex of the frame
for `a`. -/
theorem C3_period_within_tolerance (sa sa2 : ServerAnswer ℝ) (a k : Int)
    (ha : |a| ≤ 2147483648) (hak : |a + 360 * k| ≤ 2147483648) (i : Fin 8) :
    ∃ v w,
      (computeFrame goMath sa a).Vertices[i.val]? = some v ∧
      (computeFrame goMath sa2 (a + 360 * k)).Vertices[i.val]? = some w ∧
      |v.X - w.X| ≤ 1 / 1000 ∧ |v.Y - w.Y| ≤ 1 / 1000 := by
  have hk : |k| ≤ 100000000 := by
    have h1 := abs_le.mp ha
    have h2 := abs_le.mp hak
    exact abs_le.mpr ⟨by omega, by omega⟩
  have hlen : i.val < (origVertices ℝ).length := i.isLt
  have hmem : (origVertices ℝ)[i.val] ∈ origVertices ℝ := List.getElem_mem _
  obtain ⟨hc, hs⟩ := near_trig a k hk
  obtain ⟨hx, hy⟩ := vertex_close (piFloat64 : ℝ) (piFloat64 : ℝ) a (a + 360 * k) _ hmem _
    hc hs
  refine ⟨project (rotateZ goMath (rotateY goMath
      (rotateX goMath ((origVertices ℝ)[i.val]) a) a) a),
    project (rotateZ goMath (rotateY goMath
      (rotateX goMath ((origVertices ℝ)[i.val]) (a + 360 * k)) (a + 360 * k)) (a + 360 * k)),
    ?_, ?_, ?_, ?_⟩
  · rw [computeFrame_eq]
    simp only [List.getElem?_map, List.getElem?_eq_getElem hlen, Option.map_some']
  · rw [computeFrame_eq]
    simp only [List.getElem?_map, List.getElem?_eq_getElem hlen, Option.map_some']
  · exact le_trans hx (by norm_num)
  · exact le_trans hy (by norm_num)

/-- Witness of the amended C3: the frames for angle 0 and angle 360, first
vertex. -/
theorem C3_period_within_tolerance_witness :
    (|(0 : Int)| ≤ 2147483648 ∧ |(0 : Int) + 360 * 1| ≤ 2147483648) ∧
    ∃ v w,
      (computeFrame goMath (initServerAnswer ℝ "cube" "") 0).Vertices[0]? = some v ∧
      (computeFrame goMath (initServerAnswer ℝ "cube" "") (0 + 360 * 1)).Vertices[0]?
        = some w ∧
      |v.X - w.X| ≤ 1 / 1000 ∧ |v.Y - w.Y| ≤ 1 / 1000 :=
  ⟨⟨by decide, by decide⟩, C3_period_within_tolerance _ _ 0 1 (by decide) (by decide) 0⟩

/-! ## The handler against the formulas of the spec -/

theorem realMath_rotations_period (a k : Int) (p : Point3D ℝ) :
    rotateX realMath p (a + 360 * k) = rotateX realMath p a ∧
    rotateY realMath p (a + 360 * k) = rotateY realMath p a ∧
    rotateZ realMath p (a + 360 * k) = rotateZ realMath p a := by
  have hc : Real.cos (((a + 360 * k : Int) : ℝ) * Real.pi / 180) =
      Real.cos ((a : ℝ) * Real.pi / 180) := by
    rw [rad_shift, Real.cos_add_int_mul_two_pi]
  have hs : Real.sin (((a + 360 * k : Int) : ℝ) * Real.pi / 180) =
      Real.sin ((a : ℝ) * Real.pi / 180) := by
    rw [rad_shift, Real.sin_add_int_mul_two_pi]
  refine ⟨?_, ?_, ?_⟩
  · simp only [rotateX, realMath, trigMath, hc, hs]
  · simp only [rotateY, realMath, trigMath, hc, hs]
  · simp only [rotateZ, realMath, trigMath, hc, hs]

/-- The formula of the spec, with the real number pi, puts the first vertex
for the angle 360 * 10^14 where it is for the angle 0. -/
theorem spec_vertex0_far :
    specVertex Real.pi Real.cos Real.sin 36000000000000000 (⟨-1, 1, -1⟩ : Point3D ℝ) =
      ⟨148.8, 151.2⟩ := by
  have hp := pipeline_eq_spec realMath 36000000000000000 (⟨-1, 1, -1⟩ : Point3D ℝ)
  have e : (36000000000000000 : Int) = 0 + 360 * 100000000000000 := by norm_num
  have h := realMath_rotations_period 0 100000000000000
  rw [← e] at h
  rw [(h _).1, (h _).2.1, (h _).2.2] at hp
  rw [show realMath = trigMath Real.pi from rfl, rotateX_zero, rotateY_zero, rotateZ_zero,
    project_corner0] at hp
  exact hp.symm

/-- The program, which multiplies with the float64 value of `math.Pi`, puts
the first vertex for the angle 360 * 10^14 at an x beyond 149.8. -/
theorem code_vertex0_far :
    (1498 / 10 : ℝ) <
      (project (rotateZ goMath (rotateY goMath
        (rotateX goMath (⟨-1, 1, -1⟩ : Point3D ℝ) 36000000000000000) 36000000000000000)
        36000000000000000)).X := by
  obtain ⟨h1, h2, h3, h4⟩ := far_trig
  have h := far_arith _ _ h1 h2 h3 h4
  simp only [project, rotateX, rotateY, rotateZ, goMath, trigMath, fov, viewWidth,
    viewHeight, viewDistance_real]
  norm_num at h ⊢
  linarith

/-- C1, as stated, fails: for the angle 360 * 10^14 (a valid `int` on a 64-bit
target) the first vertex the handler encodes lies more than 1 away, in x, from
the point the formulas of the spec give with `t = a * pi / 180`. -/
theorem C1_formula_fails_far_out :
    Atoi 64 (Request.queryGet ⟨some "36000000000000000"⟩) = .ok 36000000000000000 ∧
    (origVertices ℝ)[0]? = some ⟨-1, 1, -1⟩ ∧
    ∃ out v,
      (computeVertices goMath 64 (initServerAnswer ℝ "cube" "")
        ⟨some "36000000000000000"⟩).result = .ok out ∧
      out.Vertices[0]? = some v ∧
      1 < v.X -
        (specVertex Real.pi Real.cos Real.sin 36000000000000000
          (⟨-1, 1, -1⟩ : Point3D ℝ)).X := by
  refine ⟨rfl, rfl, computeFrame goMath (initServerAnswer ℝ "cube" "") 36000000000000000,
    project (rotateZ goMath (rotateY goMath
      (rotateX goMath (⟨-1, 1, -1⟩ : Point3D ℝ) 36000000000000000) 36000000000000000)
      36000000000000000), ?_, ?_, ?_⟩
  · rw [computeVertices_ok goMath 64 (initServerAnswer ℝ "cube" "")
      ⟨some "36000000000000000"⟩ 36000000000000000 rfl]
  · rw [computeFrame_eq]
    rfl
  · have h := code_vertex0_far
    rw [spec_vertex0_far]
    norm_num at h ⊢
    linarith

theorem pi_trig_close (a : Int) (ha : |a| ≤ 2147483648) :
    |Real.cos ((a : ℝ) * (piFloat64 : ℝ) / 180) - Real.cos ((a : ℝ) * Real.pi / 180)|
      ≤ 15 / 10 ^ 10 ∧
    |Real.sin ((a : ℝ) * (piFloat64 : ℝ) / 180) - Real.sin ((a : ℝ) * Real.pi / 180)|
      ≤ 15 / 10 ^ 10 := by
  obtain ⟨g1, g2⟩ := pi_gap
  have ha' : |(a : ℝ)| ≤ 2147483648 := by
    have : ((|a| : Int) : ℝ) ≤ ((2147483648 : Int) : ℝ) := Int.cast_le.mpr ha
    rw [Int.cast_abs] at this
    simpa using this
  have hd : |(a : ℝ) * (Real.pi - (piFloat64 : ℝ)) / 180| ≤ 15 / 10 ^ 10 := by
    rw [abs_div, abs_mul, abs_of_pos (by norm_num : (0 : ℝ) < 180),
      abs_of_pos (by linarith : (0 : ℝ) < Real.pi - (piFloat64 : ℝ)), div_le_iff₀ (by norm_num)]
    have := mul_le_mul ha' (le_of_lt g2) (by linarith) (by norm_num)
    nlinarith [abs_nonneg (a : ℝ)]
  obtain ⟨t1, t2⟩ := trig_close ((a : ℝ) * Real.pi / 180)
    ((a : ℝ) * (Real.pi - (piFloat64 : ℝ)) / 180)
  have e : (a : ℝ) * Real.pi / 180 - (a : ℝ) * (Real.pi - (piFloat64 : ℝ)) / 180 =
      (a : ℝ) * (piFloat64 : ℝ) / 180 := by ring
  rw [e] at t1 t2
  rw [abs_sub_comm] at t1 t2
  exact ⟨le_trans t1 hd, le_trans t2 hd⟩

/-- C1, amended: for every integer angle `a` within the range of a 32-bit
`int` (absolute value at most 2^31) that a request carries, a run of the
handler that no other run overlaps encodes 8 vertices, and for each `i` in
0..7 vertex `i` lies within 1e-4, in x and in y, of the point the spec gives
for corner `i`: the projection of the corner rotated about X, then Y, then Z
by `a`, with `t = a * pi / 180` and the formulas of the spec. -/
theorem C1_vertices_near_spec_formulas (intSize : Nat) (sys : System ℝ) (r : Request)
    (a : Int) (h : Atoi intSize r.queryGet = .ok a) (ha : |a| ≤ 2147483648) (i : Fin 8) :
    ∃ out c v,
      (computeVertices goMath intSize sys.shared r).result = .ok out ∧
      (serveAlone goMath sys a).responses = sys.responses ++ [(sys.runs.length, out)] ∧
      out.Vertices.length = 8 ∧
      (origVertices ℝ)[i.val]? = some c ∧
      out.Vertices[i.val]? = some v ∧
      |v.X - (specVertex Real.pi Real.cos Real.sin a c).X| ≤ 1 / 10000 ∧
      |v.Y - (specVertex Real.pi Real.cos Real.sin a c).Y| ≤ 1 / 10000 := by
  have hlen : i.val < (origVertices ℝ).length := i.isLt
  have hmem : (origVertices ℝ)[i.val] ∈ origVertices ℝ := List.getElem_mem _
  obtain ⟨hc, hs⟩ := pi_trig_close a ha
  obtain ⟨hx, hy⟩ := vertex_close (piFloat64 : ℝ) Real.pi a a _ hmem _ hc hs
  have hspec := pipeline_eq_spec realMath a ((origVertices ℝ)[i.val])
  refine ⟨computeFrame goMath sys.shared a, (origVertices ℝ)[i.val],
    project (rotateZ goMath (rotateY goMath
      (rotateX goMath ((origVertices ℝ)[i.val]) a) a) a), ?_, ?_, ?_, ?_, ?_, ?_, ?_⟩
  · rw [computeVertices_ok goMath intSize _ r a h]
  · rw [serveAlone_eq]
  · rw [computeFrame_eq]; rfl
  · exact List.getElem?_eq_getElem hlen
  · rw [computeFrame_eq]
    simp only [List.getElem?_map, List.getElem?_eq_getElem hlen, Option.map_some']
  · have e : specVertex Real.pi Real.cos Real.sin a ((origVertices ℝ)[i.val]) =
        project (rotateZ (trigMath Real.pi) (rotateY (trigMath Real.pi)
          (rotateX (trigMath Real.pi) ((origVertices ℝ)[i.val]) a) a) a) := hspec.symm
    rw [e]
    exact le_trans hx (by norm_num)
  · have e : specVertex Real.pi Real.cos Real.sin a ((origVertices ℝ)[i.val]) =
        project (rotateZ (trigMath Real.pi) (rotateY (trigMath Real.pi)
          (rotateX (trigMath Real.pi) ((origVertices ℝ)[i.val]) a) a) a) := hspec.symm
    rw [e]
    exact le_trans hy (by norm_num)

/-- Witness of the amended C1: the request `angle=45` on a 64-bit target,
first vertex, on the server as it starts. -/
theorem C1_vertices_near_spec_formulas_witness :
    (Atoi 64 (Request.queryGet ⟨some "45"⟩) = .ok 45 ∧ |(45 : Int)| ≤ 2147483648) ∧
    ∃ out c v,
      (computeVertices goMath 64 (initServerAnswer ℝ "cube" "") ⟨some "45"⟩).result
        = .ok out ∧
      (serveAlone goMath ⟨initServerAnswer ℝ "cube" "", [], []⟩ 45).responses =
        [] ++ [(0, out)] ∧
      out.Vertices.length = 8 ∧
      (origVertices ℝ)[0]? = some c ∧
      out.Vertices[0]? = some v ∧
      |v.X - (specVertex Real.pi Real.cos Real.sin 45 c).X| ≤ 1 / 10000 ∧
      |v.Y - (specVertex Real.pi Real.cos Real.sin 45 c).Y| ≤ 1 / 10000 :=
  ⟨⟨rfl, by decide⟩,
    C1_vertices_near_spec_formulas 64 ⟨initServerAnswer ℝ "cube" "", [], []⟩ ⟨some "45"⟩ 45
      rfl (by decide) 0⟩

/-! ## The face table -/

theorem cornerAt_values (R : Type) [Field R] :
    cornerAt R 0 = ⟨-1, 1, -1⟩ ∧ cornerAt R 1 = ⟨1, 1, -1⟩ ∧
    cornerAt R 2 = ⟨1, -1, -1⟩ ∧ cornerAt R 3 = ⟨-1, -1, -1⟩ ∧
    cornerAt R 4 = ⟨-1, 1, 1⟩ ∧ cornerAt R 5 = ⟨1, 1, 1⟩ ∧
    cornerAt R 6 = ⟨1, -1, 1⟩ ∧ cornerAt R 7 = ⟨-1, -1, 1⟩ :=
  ⟨rfl, rfl, rfl, rfl, rfl, rfl, rfl, rfl⟩

theorem face_on_side {R : Type} [Field R] (k : Fin 3) (a b c d : Int)
    (hab : (cornerAt R a).coord k = (cornerAt R b).coord k)
    (hac : (cornerAt R a).coord k = (cornerAt R c).coord k)
    (had : (cornerAt R a).coord k = (cornerAt R d).coord k) :
    OnOneSide R [a, b, c, d] := by
  refine ⟨k, ?_⟩
  intro i hi j hj
  have key : ∀ x ∈ [a, b, c, d], (cornerAt R x).coord k = (cornerAt R a).coord k := by
    intro x hx
    simp only [List.mem_cons, List.mem_singleton, List.not_mem_nil, or_false] at hx
    rcases hx with rfl | rfl | rfl | rfl
    · rfl
    · exact hab.symm
    · exact hac.symm
    · exact had.symm
  rw [key i hi, key j hj]

theorem face_edges {R : Type} [Field R] (a b c d : Int)
    (hab : IsCubeEdge (cornerAt R a) (cornerAt R b))
    (hbc : IsCubeEdge (cornerAt R b) (cornerAt R c))
    (hcd : IsCubeEdge (cornerAt R c) (cornerAt R d))
    (hda : IsCubeEdge (cornerAt R d) (cornerAt R a)) :
    ∀ pq ∈ cyclicPairs [a, b, c, d], IsCubeEdge (cornerAt R pq.1) (cornerAt R pq.2) := by
  intro pq hpq
  have h : pq ∈ [(a, b), (b, c), (c, d), (d, a)] := hpq
  simp only [List.mem_cons, List.mem_singleton, List.not_mem_nil, or_false] at h
  rcases h with rfl | rfl | rfl | rfl
  · exact hab
  · exact hbc
  · exact hcd
  · exact hda

theorem edge_of_one_coord {R : Type} (p q : Point3D R)
    (h : (p.X ≠ q.X ∧ p.Y = q.Y ∧ p.Z = q.Z) ∨ (p.X = q.X ∧ p.Y ≠ q.Y ∧ p.Z = q.Z) ∨
      (p.X = q.X ∧ p.Y = q.Y ∧ p.Z ≠ q.Z)) :
    IsCubeEdge p q := by
  rcases h with ⟨hx, hy, hz⟩ | ⟨hx, hy, hz⟩ | ⟨hx, hy, hz⟩
  · refine ⟨0, hx, ?_⟩
    intro j hj; fin_cases j
    · exact absurd rfl hj
    · exact hy
    · exact hz
  · refine ⟨1, hy, ?_⟩
    intro j hj; fin_cases j
    · exact hx
    · exact absurd rfl hj
    · exact hz
  · refine ⟨2, hz, ?_⟩
    intro j hj; fin_cases j
    · exact hx
    · exact hy
    · exact absurd rfl hj

theorem not_onOneSide_of_opposite {R : Type} [Field R] [CharZero R] (l : List Int)
    (i j : Int) (hi : i ∈ l) (hj : j ∈ l)
    (hij : (i = 0 ∧ j = 6) ∨ (i = 1 ∧ j = 7) ∨ (i = 2 ∧ j = 4) ∨ (i = 3 ∧ j = 5)) :
    ¬ OnOneSide R l := by
  have h2 : (1 : R) ≠ -1 := by norm_num
  have h3 : (-1 : R) ≠ 1 := by norm_num
  obtain ⟨c0, c1, c2, c3, c4, c5, c6, c7⟩ := cornerAt_values R
  rintro ⟨k, hk⟩
  have h := hk i hi j hj
  rcases hij with ⟨rfl, rfl⟩ | ⟨rfl, rfl⟩ | ⟨rfl, rfl⟩ | ⟨rfl, rfl⟩ <;>
    fin_cases k <;>
    simp [c0, c1, c2, c3, c4, c5, c6, c7, Point3D.coord, h2, h3] at h

/-- C9: the face table has 6 entries; each is a 4-tuple of indices in [0, 8)
whose corners share the value of one coordinate and in which consecutive
corners (the last one with the first) differ in exactly one coordinate; and no
two entries name corners that all lie on one common side. -/
theorem C9_face_table_names_the_six_sides {R : Type} [Field R] [CharZero R] :
    pointOrder.length = 6 ∧
    (∀ k : Fin 6, ∃ f, pointOrder[k.val]? = some f ∧
      f.length = 4 ∧
      (∀ i ∈ f, 0 ≤ i ∧ i < 8) ∧
      OnOneSide R f ∧
      ∀ pq ∈ cyclicPairs f, IsCubeEdge (cornerAt R pq.1) (cornerAt R pq.2)) ∧
    pointOrder.Pairwise (fun f g => ¬ OnOneSide R (f ++ g)) := by
  have h2 : (1 : R) ≠ -1 := by norm_num
  have h3 : (-1 : R) ≠ 1 := by norm_num
  obtain ⟨c0, c1, c2, c3, c4, c5, c6, c7⟩ := cornerAt_values R
  have ex : ∀ (i j : Int) (p q : Point3D R), cornerAt R i = p → cornerAt R j = q →
      (p.X ≠ q.X ∧ p.Y = q.Y ∧ p.Z = q.Z) ∨ (p.X = q.X ∧ p.Y ≠ q.Y ∧ p.Z = q.Z) ∨
        (p.X = q.X ∧ p.Y = q.Y ∧ p.Z ≠ q.Z) →
      IsCubeEdge (cornerAt R i) (cornerAt R j) := by
    intro i j p q hp hq h
    rw [hp, hq]
    exact edge_of_one_coord p q h
  refine ⟨rfl, ?_, ?_⟩
  · intro k
    fin_cases k
    · refine ⟨[0, 1, 2, 3], rfl, rfl, by decide, face_on_side 2 _ _ _ _ ?_ ?_ ?_,
        face_edges _ _ _ _ (ex _ _ _ _ c0 c1 ?_) (ex _ _ _ _ c1 c2 ?_)
          (ex _ _ _ _ c2 c3 ?_) (ex _ _ _ _ c3 c0 ?_)⟩ <;>
        simp [c0, c1, c2, c3, c4, c5, c6, c7, Point3D.coord, h2, h3]
    · refine ⟨[1, 5, 6, 2], rfl, rfl, by decide, face_on_side 0 _ _ _ _ ?_ ?_ ?_,
        face_edges _ _ _ _ (ex _ _ _ _ c1 c5 ?_) (ex _ _ _ _ c5 c6 ?_)
          (ex _ _ _ _ c6 c2 ?_) (ex _ _ _ _ c2 c1 ?_)⟩ <;>
        simp [c0, c1, c2, c3, c4, c5, c6, c7, Point3D.coord, h2, h3]
    · refine ⟨[5, 4, 7, 6], rfl, rfl, by decide, face_on_side 2 _ _ _ _ ?_ ?_ ?_,
        face_edges _ _ _ _ (ex _ _ _ _ c5 c4 ?_) (ex _ _ _ _ c4 c7 ?_)
          (ex _ _ _ _ c7 c6 ?_) (ex _ _ _ _ c6 c5 ?_)⟩ <;>
        simp [c0, c1, c2, c3, c4, c5, c6, c7, Point3D.coord, h2, h3]
    · refine ⟨[4, 0, 3, 7], rfl, rfl, by decide, face_on_side 0 _ _ _ _ ?_ ?_ ?_,
        face_edges _ _ _ _ (ex _ _ _ _ c4 c0 ?_) (ex _ _ _ _ c0 c3 ?_)
          (ex _ _ _ _ c3 c7 ?_) (ex _ _ _ _ c7 c4 ?_)⟩ <;>
        simp [c0, c1, c2, c3, c4, c5, c6, c7, Point3D.coord, h2, h3]
    · refine ⟨[0, 4, 5, 1], rfl, rfl, by decide, face_on_side 1 _ _ _ _ ?_ ?_ ?_,
        face_edges _ _ _ _ (ex _ _ _ _ c0 c4 ?_) (ex _ _ _ _ c4 c5 ?_)
          (ex _ _ _ _ c5 c1 ?_) (ex _ _ _ _ c1 c0 ?_)⟩ <;>
        simp [c0, c1, c2, c3, c4, c5, c6, c7, Point3D.coord, h2, h3]
    · refine ⟨[3, 2, 6, 7], rfl, rfl, by decide, face_on_side 1 _ _ _ _ ?_ ?_ ?_,
        face_edges _ _ _ _ (ex _ _ _ _ c3 c2 ?_) (ex _ _ _ _ c2 c6 ?_)
          (ex _ _ _ _ c6 c7 ?_) (ex _ _ _ _ c7 c3 ?_)⟩ <;>
        simp [c0, c1, c2, c3, c4, c5, c6, c7, Point3D.coord, h2, h3]
  · simp only [pointOrder, List.pairwise_cons, List.mem_cons, List.mem_singleton,
      List.not_mem_nil, forall_eq_or_imp, forall_eq, List.Pairwise.nil, and_true,
      IsEmpty.forall_iff, implies_true, or_false]
    refine ⟨⟨?_, ?_, ?_, ?_, ?_⟩, ⟨?_, ?_, ?_, ?_⟩, ⟨?_, ?_, ?_⟩, ⟨?_, ?_⟩, ?_⟩ <;>
      first
      | exact not_onOneSide_of_opposite _ 0 6 (by decide) (by decide) (by decide)
      | exact not_onOneSide_of_opposite _ 1 7 (by decide) (by decide) (by decide)
      | exact not_onOneSide_of_opposite _ 2 4 (by decide) (by decide) (by decide)

/-- Witness of C9: the face table over the rationals. -/
theorem C9_face_table_names_the_six_sides_witness :
    pointOrder.length = 6 ∧
    (∀ k : Fin 6, ∃ f, pointOrder[k.val]? = some f ∧
      f.length = 4 ∧
      (∀ i ∈ f, 0 ≤ i ∧ i < 8) ∧
      OnOneSide ℚ f ∧
      ∀ pq ∈ cyclicPairs f, IsCubeEdge (cornerAt ℚ pq.1) (cornerAt ℚ pq.2)) ∧
    pointOrder.Pairwise (fun f g => ¬ OnOneSide ℚ (f ++ g)) :=
  @C9_face_table_names_the_six_sides ℚ _ _

end CubeDemo
